import Mathlib

/-!
Résumé matching server (`src/server.js`).

A shallow embedding of the logic of `src/server.js`: the matching function
`analyzeResume`, the spreadsheet logger `appendToExcel` and the `POST /upload`
handler.

Modelling conventions.

* A JavaScript string is a Lean `String` (a sequence of characters).  The built-in
  string methods used by the source (`split`, `trim`, `includes`, `join`) are defined
  below on the character sequence.  `String.prototype.toLowerCase` is the runtime's
  Unicode lowercase mapping; it is a parameter `toLowerCase : String → String` of every
  definition that calls it, so every theorem holds for whatever mapping the runtime
  provides.  `asciiLower` is one concrete mapping, used to evaluate examples.
* A JavaScript number is the rational it denotes.  Lines 197–199 are evaluated twice:
  `analyzeResumeDouble` rounds every operation to the nearest IEEE 754 double
  (`roundDouble`), as the runtime does; `analyzeResume` evaluates the same expression
  without rounding.  The two agree whenever no operation rounds, as for the scores 0, 50,
  75 and 100 of the scenarios; the statements about the value of `probability` in general
  are made on `analyzeResumeDouble`.
* A thrown exception is an `Except.error`.
* The `xlsx` package is an external dependency.  The four `xlsx.utils` functions the
  logger calls are modelled on a worksheet seen as a grid of cells; reading a file back
  gives the workbook that was written.
-/

namespace Server

/-! ## JavaScript values and string built-ins -/

/-- The JavaScript values that occur as form fields and as spreadsheet cells. -/
inductive JsVal where
  | undefined
  | str (s : String)
  | num (q : ℚ)
  | bool (b : Bool)
deriving DecidableEq

/-- The exceptions the modelled code can raise. -/
inductive JsError where
  | typeError
  | ioError
deriving DecidableEq

/-- A row object as returned by `xlsx.utils.sheet_to_json`: column title to cell value. -/
abbrev Row := List (String × JsVal)

/-- Property access `item[key]`: the value stored under `key`, `undefined` when absent. -/
def Row.prop (item : Row) (key : String) : JsVal :=
  match item.lookup key with
  | some v => v
  | none => JsVal.undefined

/-- The code points `String.prototype.trim` removes (ECMAScript WhiteSpace and
LineTerminator). -/
def isWhiteSpace (c : Char) : Bool :=
  c.toNat ∈ [0x09, 0x0A, 0x0B, 0x0C, 0x0D, 0x20, 0xA0, 0x1680, 0x2000, 0x2001, 0x2002, 0x2003,
    0x2004, 0x2005, 0x2006, 0x2007, 0x2008, 0x2009, 0x200A, 0x2028, 0x2029, 0x202F, 0x205F,
    0x3000, 0xFEFF]

/-- The method `String.prototype.trim`: drop white space at both ends. -/
def trim (s : String) : String :=
  ⟨((s.data.dropWhile isWhiteSpace).reverse.dropWhile isWhiteSpace).reverse⟩

/-- Splitting a character sequence at every occurrence of `sep`. -/
def splitChars (sep : Char) : List Char → List (List Char)
  | [] => [[]]
  | c :: cs =>
    if c = sep then [] :: splitChars sep cs
    else match splitChars sep cs with
      | [] => [[c]]
      | piece :: pieces => (c :: piece) :: pieces

/-- The method `String.prototype.split` with a one-character separator. -/
def split (s : String) (sep : Char) : List String :=
  (splitChars sep s.data).map String.mk

/-- Substring search on character sequences: does `needle` occur in the first argument? -/
def includesChars : List Char → List Char → Bool
  | [], needle => needle.isEmpty
  | c :: cs, needle => needle.isPrefixOf (c :: cs) || includesChars cs needle

/-- The method `String.prototype.includes`. -/
def includes (s search : String) : Bool := includesChars s.data search.data

/-- The method `Array.prototype.join` on an array of strings. -/
def join : List String → String → String
  | [], _ => ""
  | [x], _ => x
  | x :: y :: rest, sep => x ++ sep ++ join (y :: rest) sep

/-- The expression `s || fallback` for a string `s`: the empty string is falsy. -/
def orElse (s fallback : String) : String := if s = "" then fallback else s

/-- A lowercase mapping that changes the letters `A`–`Z` only. -/
def asciiLower (s : String) : String := ⟨s.data.map Char.toLower⟩

/-! ## `analyzeResume` -/

/-- The object returned by `analyzeResume`. -/
structure AnalysisResult where
  jobRole : JsVal
  probability : ℚ
  additionalSkills : String
  additionalFrameworks : String
  feedback : String
deriving DecidableEq

/-- The text used for all three string fields when the role is unknown. -/
def notFoundMessage : String := "Job role not found in the dataset"

/-- Feedback of the branch `probability === 100`. -/
def perfectMessage : String := "Great job! You are a perfect match for this role!"

/-- Fixed part of the feedback of the branch `probability >= 50`. -/
def someMessage : String :=
  "You have some of the required skills and frameworks. Consider improving the following areas: "

/-- Fixed part of the feedback of the last branch. -/
def improveMessage : String :=
  "You need to improve your skills and frameworks significantly. Consider learning: "

/-- The expression `field.split(',').map(x => x.trim())` of lines 169–170. -/
def parseList (field : String) : List String := (split field ',').map trim

/-- The test of lines 180 and 189: `resumeText.toLowerCase().includes(item.toLowerCase())`. -/
def isFound (toLowerCase : String → String) (resumeText item : String) : Bool :=
  includes (toLowerCase resumeText) (toLowerCase item)

/-- The `forEach` loops of lines 179–194: each required item is pushed on the found array
or on the additional (missing) array.  The result is `(found, additional)`. -/
def classify (toLowerCase : String → String) (resumeText : String) (required : List String) :
    List String × List String :=
  required.foldl
    (fun acc item =>
      if isFound toLowerCase resumeText item then (acc.1 ++ [item], acc.2)
      else (acc.1, acc.2 ++ [item]))
    ([], [])

/-- One half of the score, lines 197–198: `(found.length / required.length) * 50`. -/
def halfProbability (found required : List String) : ℚ :=
  (found.length : ℚ) / (required.length : ℚ) * 50

/-- The feedback selection of lines 202–208. -/
def makeFeedback (probability : ℚ) (additionalSkills additionalFrameworks : List String) :
    String :=
  if probability = 100 then perfectMessage
  else if probability ≥ 50 then
    someMessage ++ join additionalSkills ", " ++ ", " ++ join additionalFrameworks ", "
  else
    improveMessage ++ join additionalSkills ", " ++ ", " ++ join additionalFrameworks ", "

/-- The function `analyzeResume` of lines 157–217.  Calling `.split` on a cell that is not
a string raises a `TypeError`. -/
def analyzeResume (toLowerCase : String → String) (resumeText : String) (jobRole : JsVal)
    (excelData : List Row) : Except JsError AnalysisResult :=
  match excelData.find? (fun item => decide (item.prop "JOB ROLES" = jobRole)) with
  | none =>
    Except.ok
      { jobRole := jobRole
        probability := 0
        additionalSkills := notFoundMessage
        additionalFrameworks := notFoundMessage
        feedback := notFoundMessage }
  | some jobData =>
    match jobData.prop "PROGRAMMING SKILLS" with
    | JsVal.str skillsField =>
      match jobData.prop "FRAMEWORKS" with
      | JsVal.str frameworksField =>
        let requiredSkills := parseList skillsField
        let requiredFrameworks := parseList frameworksField
        let skills := classify toLowerCase resumeText requiredSkills
        let frameworks := classify toLowerCase resumeText requiredFrameworks
        let skillsProbability := halfProbability skills.1 requiredSkills
        let frameworksProbability := halfProbability frameworks.1 requiredFrameworks
        let probability := skillsProbability + frameworksProbability
        Except.ok
          { jobRole := jobRole
            probability := probability
            additionalSkills := orElse (join skills.2 ", ") "None"
            additionalFrameworks := orElse (join frameworks.2 ", ") "None"
            feedback := makeFeedback probability skills.2 frameworks.2 }
      | _ => Except.error JsError.typeError
    | _ => Except.error JsError.typeError

/-! ## Double precision -/

/-- Rounding to the nearest integer, a tie going to the even neighbour. -/
def roundHalfEven (x : ℚ) : ℤ :=
  if x - ⌊x⌋ < 1 / 2 then ⌊x⌋
  else if 1 / 2 < x - ⌊x⌋ then ⌊x⌋ + 1
  else if ⌊x⌋ % 2 = 0 then ⌊x⌋ else ⌊x⌋ + 1

/-- The IEEE 754 double nearest to a rational (53-bit significand, round to nearest, ties
to even): with `e` the binary exponent of `q`, the significand `q * 2 ^ (52 - e)` is
rounded to an integer.  The exponent range is not limited: overflow and subnormal numbers
need magnitudes above `2 ^ 1023` or below `2 ^ (-1022)`, which a quotient of two array
lengths and its multiples up to 100 do not reach. -/
def roundDouble (q : ℚ) : ℚ :=
  if q = 0 then 0
  else (roundHalfEven (q * 2 ^ (52 - Int.log 2 |q|)) : ℚ) * 2 ^ (Int.log 2 |q| - 52)

/-- One half of the score, lines 197–198, in double precision: the quotient of the two
lengths is rounded, then its product with 50. -/
def halfProbabilityDouble (found required : List String) : ℚ :=
  roundDouble (roundDouble ((found.length : ℚ) / (required.length : ℚ)) * 50)

/-- The function `analyzeResume` of lines 157–217 with the arithmetic of lines 197–199 in
double precision. -/
def analyzeResumeDouble (toLowerCase : String → String) (resumeText : String) (jobRole : JsVal)
    (excelData : List Row) : Except JsError AnalysisResult :=
  match excelData.find? (fun item => decide (item.prop "JOB ROLES" = jobRole)) with
  | none =>
    Except.ok
      { jobRole := jobRole
        probability := 0
        additionalSkills := notFoundMessage
        additionalFrameworks := notFoundMessage
        feedback := notFoundMessage }
  | some jobData =>
    match jobData.prop "PROGRAMMING SKILLS" with
    | JsVal.str skillsField =>
      match jobData.prop "FRAMEWORKS" with
      | JsVal.str frameworksField =>
        let requiredSkills := parseList skillsField
        let requiredFrameworks := parseList frameworksField
        let skills := classify toLowerCase resumeText requiredSkills
        let frameworks := classify toLowerCase resumeText requiredFrameworks
        let skillsProbability := halfProbabilityDouble skills.1 requiredSkills
        let frameworksProbability := halfProbabilityDouble frameworks.1 requiredFrameworks
        let probability := roundDouble (skillsProbability + frameworksProbability)
        Except.ok
          { jobRole := jobRole
            probability := probability
            additionalSkills := orElse (join skills.2 ", ") "None"
            additionalFrameworks := orElse (join frameworks.2 ", ") "None"
            feedback := makeFeedback probability skills.2 frameworks.2 }
      | _ => Except.error JsError.typeError
    | _ => Except.error JsError.typeError

/-- The runtime's `toUpperCase` on the letters `a`–`z` and on `ß` (U+00DF), which has no
single uppercase character and becomes `SS`; other characters are left unchanged. -/
def upperCaseLatin (s : String) : String :=
  ⟨s.data.flatMap (fun c => if c = 'ß' then ['S', 'S'] else [c.toUpper])⟩

/-- A dataset row with the three columns the matching reads, all of them strings. -/
def mkRow (role skillsField frameworksField : String) : Row :=
  [("JOB ROLES", JsVal.str role),
   ("PROGRAMMING SKILLS", JsVal.str skillsField),
   ("FRAMEWORKS", JsVal.str frameworksField)]

/-- The row of the scenario in the specification. -/
def backendRow : Row := mkRow "Backend Developer" "Python, Java" "Django, Spring"

/-- The dataset of the scenario in the specification: one role with its two lists. -/
def backendDataset : List Row := [backendRow]

/-- A role whose only required skill is spelled "None". -/
def testerRow : Row := mkRow "Tester" "None" "Selenium"

/-- A role with three required skills and one required framework. -/
def thirdsRow : Row := mkRow "Developer" "Python, Java, Rust" "Django"

/-- A role with three required skills and three required frameworks. -/
def sixItemsRow : Row := mkRow "Developer" "Python, Java, Rust" "Django, Spring, Flask"

/-- A role whose required skill contains the letter `ß`. -/
def strasseRow : Row := mkRow "Bauleiter" "straße, Java" "Flask, Django"

/-- A role with one required skill and two required frameworks. -/
def pythonRow : Row := mkRow "Backend Developer" "Python" "Django, Spring"

/-! ## The spreadsheet library

A model of the four `xlsx.utils` functions the logger calls.  A worksheet is its grid of
cells, first row first; a position without a cell is `none`. -/

/-- The grid of cells of a worksheet. -/
abbrev Worksheet := List (List (Option JsVal))

/-- A workbook: the sheet names in order, and the sheet stored under each name. -/
structure Workbook where
  SheetNames : List String
  Sheets : List (String × Worksheet)
deriving DecidableEq

/-- The column titles of an array of objects: every key, in order of first appearance. -/
def headerKeys (js : List Row) : List String :=
  js.foldl
    (fun hdr row => row.foldl (fun hdr kv => if kv.1 ∈ hdr then hdr else hdr ++ [kv.1]) hdr)
    []

/-- The cell written for a property value: a string, number or boolean becomes a cell (the
empty string too, as a string cell with value `''`); `undefined` leaves a stub that reads
back as no cell. -/
def cellOf : Option JsVal → Option JsVal
  | some JsVal.undefined => none
  | c => c

/-- The function `xlsx.utils.json_to_sheet(js)`: a title row, then one row per object. -/
def json_to_sheet (js : List Row) : Worksheet :=
  (headerKeys js).map (fun k => some (JsVal.str k))
    :: js.map (fun row => (headerKeys js).map (fun k => cellOf (row.lookup k)))

/-- Writing the cells of one row over an existing row. -/
def overlayRow : List (Option JsVal) → List (Option JsVal) → List (Option JsVal)
  | [], old => old
  | c :: cs, [] => c :: cs
  | c :: cs, o :: os => (c <|> o) :: overlayRow cs os

/-- Writing the cells of a grid over an existing grid, both starting at cell `A1`. -/
def overlay : Worksheet → Worksheet → Worksheet
  | [], old => old
  | r :: rs, [] => r :: rs
  | r :: rs, o :: os => overlayRow r o :: overlay rs os

/-- The call `xlsx.utils.sheet_add_json(ws, js, { skipHeader: false, origin: 'A1' })`: the
title row and the rows of `js` are written into `ws` from cell `A1` on. -/
def sheet_add_json (ws : Worksheet) (js : List Row) : Worksheet :=
  overlay (json_to_sheet js) ws

/-- The property name `sheet_to_json` takes from a cell of the first row.  The titles of
every sheet this program writes are distinct strings; the renaming of repeated titles is
not modelled. -/
def headerName : Option JsVal → String
  | some (JsVal.str s) => s
  | _ => "__EMPTY"

/-- The object `sheet_to_json` builds from one row: a property for every cell present. -/
def rowObject (hdr : List String) (cells : List (Option JsVal)) : Row :=
  (hdr.zip cells).filterMap (fun kc => kc.2.map (fun v => (kc.1, v)))

/-- The function `xlsx.utils.sheet_to_json(ws)` with default options: the first row gives
the property names, every further row gives one object, and a row in which no cell is
present is skipped. -/
def sheet_to_json : Worksheet → List Row
  | [] => []
  | header :: rows =>
    (rows.map (rowObject (header.map headerName))).filter (fun obj => !obj.isEmpty)

/-- The function `xlsx.utils.book_new()`. -/
def book_new : Workbook := { SheetNames := [], Sheets := [] }

/-- The function `xlsx.utils.book_append_sheet(workbook, worksheet, name)`. -/
def book_append_sheet (workbook : Workbook) (worksheet : Worksheet) (name : String) : Workbook :=
  { SheetNames := workbook.SheetNames ++ [name]
    Sheets := workbook.Sheets ++ [(name, worksheet)] }

/-- The assignment `sheets[name] = worksheet` on the object `workbook.Sheets`. -/
def setSheet (sheets : List (String × Worksheet)) (name : String) (worksheet : Worksheet) :
    List (String × Worksheet) :=
  match sheets with
  | [] => [(name, worksheet)]
  | (k, ws) :: rest =>
    if k = name then (k, worksheet) :: rest else (k, ws) :: setSheet rest name worksheet

/-! ## `appendToExcel` and the `/upload` handler -/

/-- The files the handler touches: the temporary files stored by the upload middleware
(path and contents), the log `userdata.xlsx` (`none` when it does not exist), and whether
the log can be written. -/
structure FileSystem where
  uploads : List (String × String)
  userdata : Option Workbook
  writable : Bool
deriving DecidableEq

/-- The object seeded into a new log at lines 48–57: every column title with value `''`. -/
def headerSeed : Row :=
  [("First Name", JsVal.str ""), ("Email", JsVal.str ""), ("Phone", JsVal.str ""),
   ("Signup Date", JsVal.str ""), ("Signup Time", JsVal.str ""), ("Job Role", JsVal.str ""),
   ("Probability Score", JsVal.str ""), ("Resume File", JsVal.str "")]

/-- The function `appendToExcel` of lines 34–70, on the log part of the file system.  The
result is the workbook handed to `xlsx.writeFile`. -/
def appendToExcelWorkbook (userdata : Option Workbook) (data : Row) : Workbook :=
  let opened : Workbook × Option Worksheet :=
    match userdata with
    | some workbook =>
      (workbook, workbook.SheetNames.head?.bind (fun name => workbook.Sheets.lookup name))
    | none =>
      let worksheet := sheet_add_json (json_to_sheet []) [headerSeed]
      (book_append_sheet book_new worksheet "UserData", some worksheet)
  let workbook := opened.1
  let existingData : List Row :=
    match opened.2 with
    | some worksheet => sheet_to_json worksheet
    | none => []
  let newWorksheet := json_to_sheet (existingData ++ [data])
  { SheetNames := workbook.SheetNames
    Sheets := setSheet workbook.Sheets (workbook.SheetNames.headD "undefined") newWorksheet }

/-- The function `appendToExcel` with its effect on the file system: `xlsx.writeFile`
throws when the log cannot be written. -/
def appendToExcel (fs : FileSystem) (data : Row) : Except JsError FileSystem :=
  if fs.writable then
    Except.ok { fs with userdata := some (appendToExcelWorkbook fs.userdata data) }
  else Except.error JsError.ioError

/-- JavaScript truthiness of a value. -/
def JsVal.truthy : JsVal → Bool
  | JsVal.undefined => false
  | JsVal.str s => decide (s ≠ "")
  | JsVal.num q => decide (q ≠ 0)
  | JsVal.bool b => b

/-- The expression `v || fallback`. -/
def JsVal.or (v fallback : JsVal) : JsVal := if v.truthy then v else fallback

/-- The file object the upload middleware attaches to the request. -/
structure UploadedFile where
  path : String
  originalname : String
deriving DecidableEq

/-- The request as the handler reads it: `req.file` and the four fields of `req.body`. -/
structure Request where
  file : Option UploadedFile
  firstName : JsVal
  email : JsVal
  phone : JsVal
  jobRole : JsVal
deriving DecidableEq

/-- The response sent by the handler. -/
inductive Response where
  | analysis (jobRole : JsVal) (probability : ℚ)
      (additionalSkills additionalFrameworks feedback : String)
  | error (status : Nat) (message : String)
deriving DecidableEq

/-- What the handler gets from its collaborators: the lowercase mapping of the runtime,
the PDF text extraction, the rows of the reference dataset, and the current date and
time as formatted by the runtime. -/
structure Env where
  toLowerCase : String → String
  pdfParse : String → Except JsError String
  excelData : List Row
  signupDate : String
  signupTime : String

/-- The object `excelDataRow` of lines 120–129. -/
def excelDataRow (req : Request) (signupDate signupTime : String) (probability : ℚ)
    (resumeFileName : String) : Row :=
  [("First Name", req.firstName.or (JsVal.str "N/A")),
   ("Email", req.email.or (JsVal.str "N/A")),
   ("Phone", req.phone.or (JsVal.str "N/A")),
   ("Signup Date", JsVal.str signupDate),
   ("Signup Time", JsVal.str signupTime),
   ("Job Role", req.jobRole.or (JsVal.str "N/A")),
   ("Probability Score", JsVal.num probability),
   ("Resume File", JsVal.str resumeFileName)]

/-- The call `fs.unlinkSync(filePath)`. -/
def unlinkSync (fs : FileSystem) (filePath : String) : FileSystem :=
  { fs with uploads := fs.uploads.filter (fun f => f.1 ≠ filePath) }

/-- The `try` block of the handler, lines 87–138: the response it sends or the exception
it throws, and the file system at that point. -/
def uploadTry (env : Env) (req : Request) (file : UploadedFile) (fs : FileSystem) :
    Except JsError Response × FileSystem :=
  match fs.uploads.lookup file.path with
  | none => (Except.error JsError.ioError, fs)
  | some dataBuffer =>
    match env.pdfParse dataBuffer with
    | Except.error e => (Except.error e, fs)
    | Except.ok resumeText =>
      match analyzeResume env.toLowerCase resumeText req.jobRole env.excelData with
      | Except.error e => (Except.error e, fs)
      | Except.ok analysisResult =>
        match appendToExcel fs
            (excelDataRow req env.signupDate env.signupTime analysisResult.probability
              file.originalname) with
        | Except.error e => (Except.error e, fs)
        | Except.ok fs1 =>
          (Except.ok
              (Response.analysis req.jobRole analysisResult.probability
                analysisResult.additionalSkills analysisResult.additionalFrameworks
                analysisResult.feedback),
            unlinkSync fs1 file.path)

/-- The handler of `POST /upload`, lines 78–143: the response and the file system left
behind. -/
def upload (env : Env) (req : Request) (fs : FileSystem) : Response × FileSystem :=
  match req.file with
  | none => (Response.error 400 "No file uploaded", fs)
  | some file =>
    match uploadTry env req file fs with
    | (Except.ok response, fs1) => (response, fs1)
    | (Except.error _, fs1) => (Response.error 500 "Error processing request", fs1)

/-! ## Concrete inputs used to evaluate the handler -/

/-- A stand-in for the PDF text extraction: a buffer that starts with `%PDF ` yields the
text after that mark, any other buffer is rejected. -/
def markedPdfParse (dataBuffer : String) : Except JsError String :=
  if "%PDF ".data.isPrefixOf dataBuffer.data then Except.ok ⟨dataBuffer.data.drop 5⟩
  else Except.error JsError.ioError

/-- Collaborators for the scenario of the specification. -/
def backendEnv : Env :=
  { toLowerCase := asciiLower
    pdfParse := markedPdfParse
    excelData := backendDataset
    signupDate := "11/06/2026"
    signupTime := "10:15:00" }

/-- The same collaborators with a dataset whose skills cell is a number. -/
def numericCellEnv : Env :=
  { toLowerCase := asciiLower
    pdfParse := markedPdfParse
    excelData :=
      [[("JOB ROLES", JsVal.str "Backend Developer"), ("PROGRAMMING SKILLS", JsVal.num 3),
        ("FRAMEWORKS", JsVal.str "Django, Spring")]]
    signupDate := "11/06/2026"
    signupTime := "10:15:00" }

/-- A request with a file, a first name and a job role, and no e-mail or phone field. -/
def adaRequest : Request :=
  { file := some { path := "uploads/9f3c", originalname := "cv.pdf" }
    firstName := JsVal.str "Ada"
    email := JsVal.undefined
    phone := JsVal.undefined
    jobRole := JsVal.str "Backend Developer" }

/-- The row the handler builds for `adaRequest` when the probability is 50. -/
def adaRow : Row := excelDataRow adaRequest "11/06/2026" "10:15:00" 50 "cv.pdf"

/-- A file system holding the temporary copy of an upload with the given contents, and no
log. -/
def freshFileSystem (dataBuffer : String) : FileSystem :=
  { uploads := [("uploads/9f3c", dataBuffer)], userdata := none, writable := true }

/-- The title row of the log. -/
def titleCells : List (Option JsVal) :=
  [some (JsVal.str "First Name"), some (JsVal.str "Email"), some (JsVal.str "Phone"),
   some (JsVal.str "Signup Date"), some (JsVal.str "Signup Time"), some (JsVal.str "Job Role"),
   some (JsVal.str "Probability Score"), some (JsVal.str "Resume File")]

/-- A row of eight string cells with value `''`. -/
def blankCells : List (Option JsVal) := List.replicate 8 (some (JsVal.str ""))

/-- The cells of `adaRow`. -/
def adaCells : List (Option JsVal) :=
  [some (JsVal.str "Ada"), some (JsVal.str "N/A"), some (JsVal.str "N/A"),
   some (JsVal.str "11/06/2026"), some (JsVal.str "10:15:00"),
   some (JsVal.str "Backend Developer"), some (JsVal.num 50), some (JsVal.str "cv.pdf")]

/-! ## Facts about the string built-ins -/

theorem includesChars_iff (hay needle : List Char) :
    includesChars hay needle = true ↔ needle <:+: hay := by
  induction hay with
  | nil => simp [includesChars, List.isEmpty_iff]
  | cons c cs ih =>
    simp only [includesChars, Bool.or_eq_true, ih, List.isPrefixOf_iff_prefix]
    exact List.infix_cons_iff.symm

theorem includes_iff (s search : String) :
    includes s search = true ↔ search.data <:+: s.data :=
  includesChars_iff s.data search.data

theorem includes_empty (s : String) : includes s "" = true := by
  rw [includes_iff]
  exact List.nil_infix

theorem splitChars_ne_nil (sep : Char) (l : List Char) : splitChars sep l ≠ [] := by
  induction l with
  | nil => simp [splitChars]
  | cons c cs ih =>
    unfold splitChars
    split
    · simp
    · split <;> simp

theorem splitChars_no_sep (sep : Char) (l : List Char) :
    ∀ piece ∈ splitChars sep l, sep ∉ piece := by
  induction l with
  | nil => simp [splitChars]
  | cons c cs ih =>
    unfold splitChars
    split
    · intro piece hp
      rcases List.mem_cons.mp hp with h | h
      · simp [h]
      · exact ih piece h
    · rename_i hc
      split
      · intro piece hp
        simp only [List.mem_singleton] at hp
        subst hp
        simpa using Ne.symm hc
      · rename_i p ps heq
        intro piece hp
        rcases List.mem_cons.mp hp with h | h
        · subst h
          have := ih p (by rw [heq]; exact List.mem_cons_self _ _)
          simp only [List.mem_cons, not_or]
          exact ⟨Ne.symm hc, this⟩
        · exact ih piece (by rw [heq]; exact List.mem_cons_of_mem _ h)

theorem trim_sublist (s : String) : List.Sublist (trim s).data s.data := by
  unfold trim
  simp only
  refine List.Sublist.trans ?_ (List.dropWhile_sublist isWhiteSpace)
  rw [← List.reverse_sublist, List.reverse_reverse]
  exact List.dropWhile_sublist isWhiteSpace

theorem parseList_ne_nil (field : String) : parseList field ≠ [] := by
  simp [parseList, split, splitChars_ne_nil]

theorem parseList_length_pos (field : String) : 0 < (parseList field).length :=
  List.length_pos.mpr (parseList_ne_nil field)

theorem parseList_no_comma (field : String) : ∀ item ∈ parseList field, ',' ∉ item.data := by
  intro item hitem
  simp only [parseList, split, List.map_map, List.mem_map, Function.comp] at hitem
  obtain ⟨piece, hpiece, rfl⟩ := hitem
  intro hmem
  exact splitChars_no_sep ',' field.data piece hpiece ((trim_sublist ⟨piece⟩).subset hmem)

/-! ## Facts about the pieces of `analyzeResume` -/

theorem classify_foldl (toLowerCase : String → String) (resumeText : String)
    (required found additional : List String) :
    required.foldl
      (fun acc item =>
        if isFound toLowerCase resumeText item then (acc.1 ++ [item], acc.2)
        else (acc.1, acc.2 ++ [item]))
      (found, additional)
    = (found ++ required.filter (fun item => isFound toLowerCase resumeText item),
       additional ++ required.filter (fun item => !isFound toLowerCase resumeText item)) := by
  induction required generalizing found additional with
  | nil => simp
  | cons item rest ih =>
    rw [List.foldl_cons, ih]
    cases h : isFound toLowerCase resumeText item <;> simp [h]

theorem classify_eq (toLowerCase : String → String) (resumeText : String)
    (required : List String) :
    classify toLowerCase resumeText required
    = (required.filter (fun item => isFound toLowerCase resumeText item),
       required.filter (fun item => !isFound toLowerCase resumeText item)) := by
  unfold classify
  rw [classify_foldl]
  simp

theorem halfProbability_le (found required : List String)
    (h : found.length ≤ required.length) : halfProbability found required ≤ 50 := by
  unfold halfProbability
  have hq : (found.length : ℚ) ≤ (required.length : ℚ) := by exact_mod_cast h
  have h1 : (found.length : ℚ) / (required.length : ℚ) ≤ 1 :=
    div_le_one_of_le₀ hq (by positivity)
  linarith

theorem halfProbability_eq_fifty_iff (found required : List String)
    (hpos : 0 < required.length) :
    halfProbability found required = 50 ↔ found.length = required.length := by
  unfold halfProbability
  have hq : (0 : ℚ) < (required.length : ℚ) := by exact_mod_cast hpos
  constructor
  · intro heq
    have h1 : (found.length : ℚ) / (required.length : ℚ) = 1 := by linarith
    rw [div_eq_one_iff_eq (ne_of_gt hq)] at h1
    exact_mod_cast h1
  · intro heq
    rw [heq, div_self (ne_of_gt hq)]
    norm_num

theorem classify_found_length_le (toLowerCase : String → String) (resumeText : String)
    (required : List String) :
    (classify toLowerCase resumeText required).1.length ≤ required.length := by
  rw [classify_eq]
  exact List.length_filter_le _ _

theorem classify_found_all_iff (toLowerCase : String → String) (resumeText : String)
    (required : List String) :
    (classify toLowerCase resumeText required).1.length = required.length
      ↔ ∀ item ∈ required, isFound toLowerCase resumeText item = true := by
  rw [classify_eq]
  exact List.filter_length_eq_length

theorem analyzeResume_matched (toLowerCase : String → String) (resumeText : String)
    (jobRole : JsVal) (excelData : List Row) (jobData : Row) (skillsField frameworksField : String)
    (hfind : excelData.find? (fun item => decide (item.prop "JOB ROLES" = jobRole)) = some jobData)
    (hskills : jobData.prop "PROGRAMMING SKILLS" = JsVal.str skillsField)
    (hframeworks : jobData.prop "FRAMEWORKS" = JsVal.str frameworksField) :
    analyzeResume toLowerCase resumeText jobRole excelData
    = Except.ok
        { jobRole := jobRole
          probability :=
            halfProbability (classify toLowerCase resumeText (parseList skillsField)).1
                (parseList skillsField)
              + halfProbability (classify toLowerCase resumeText (parseList frameworksField)).1
                (parseList frameworksField)
          additionalSkills :=
            orElse (join (classify toLowerCase resumeText (parseList skillsField)).2 ", ") "None"
          additionalFrameworks :=
            orElse (join (classify toLowerCase resumeText (parseList frameworksField)).2 ", ")
              "None"
          feedback :=
            makeFeedback
              (halfProbability (classify toLowerCase resumeText (parseList skillsField)).1
                  (parseList skillsField)
                + halfProbability (classify toLowerCase resumeText (parseList frameworksField)).1
                  (parseList frameworksField))
              (classify toLowerCase resumeText (parseList skillsField)).2
              (classify toLowerCase resumeText (parseList frameworksField)).2 } := by
  unfold analyzeResume
  rw [hfind]
  simp only [hskills, hframeworks]

theorem classify_found_length (toLowerCase : String → String) (resumeText : String)
    (required : List String) :
    (classify toLowerCase resumeText required).1.length
      = required.countP
          (fun item => decide ((toLowerCase item).data <:+: (toLowerCase resumeText).data)) := by
  rw [classify_eq, List.countP_eq_length_filter]
  congr 1
  apply List.filter_congr
  intro item _
  simp only [isFound]
  rw [Bool.eq_iff_iff, includes_iff]
  simp

theorem join_eq_empty (items : List String) (sep : String)
    (hne : ∀ item ∈ items, item ≠ "") (h : join items sep = "") : items = [] := by
  match items, hne, h with
  | [], _, _ => rfl
  | [x], hne, h =>
    simp only [join] at h
    exact absurd h (hne x (List.mem_singleton_self x))
  | x :: y :: rest, hne, h =>
    simp only [join] at h
    have hd := congrArg String.data h
    simp only [String.data_append] at hd
    have hx : x.data = [] := by
      have := List.append_eq_nil.mp hd
      exact (List.append_eq_nil.mp this.1).1
    exact absurd (String.ext hx) (hne x (List.mem_cons_self _ _))

theorem join_comma_mem (x y : String) (rest : List String) :
    ',' ∈ (join (x :: y :: rest) ", ").data := by
  simp only [join, String.data_append, List.mem_append]
  exact Or.inl (Or.inr (by decide))

theorem orElse_join_eq_none_iff (items : List String)
    (hne : ∀ item ∈ items, item ≠ "") (hcomma : ∀ item ∈ items, ',' ∉ item.data) :
    orElse (join items ", ") "None" = "None" ↔ items = [] ∨ items = ["None"] := by
  constructor
  · intro h
    unfold orElse at h
    split at h
    · rename_i hempty
      exact Or.inl (join_eq_empty items ", " hne hempty)
    · match items, h with
      | [], _ => exact Or.inl rfl
      | [x], h =>
        simp only [join] at h
        exact Or.inr (by rw [h])
      | x :: y :: rest, h =>
        have hmem := join_comma_mem x y rest
        rw [h] at hmem
        exact absurd hmem (by decide)
  · rintro (h | h)
    · subst h
      decide
    · subst h
      decide

theorem orElse_join_of_ne_nil (items : List String)
    (hne : ∀ item ∈ items, item ≠ "") (hitems : items ≠ []) :
    orElse (join items ", ") "None" = join items ", " := by
  unfold orElse
  split
  · rename_i hempty
    exact absurd (join_eq_empty items ", " hne hempty) hitems
  · rfl

theorem join_append (xs ys : List String) (hx : xs ≠ []) (hy : ys ≠ []) :
    join (xs ++ ys) ", " = join xs ", " ++ ", " ++ join ys ", " := by
  induction xs with
  | nil => exact absurd rfl hx
  | cons x rest ih =>
    cases rest with
    | nil =>
      cases ys with
      | nil => exact absurd rfl hy
      | cons y ys => simp [join]
    | cons z rest =>
      have := ih (by simp)
      simp only [List.cons_append] at this ⊢
      simp only [join, this, String.append_assoc]

theorem someMessage_append_ne (rest : String) : someMessage ++ rest ≠ perfectMessage := by
  intro h
  have hd := congrArg (fun t => t.data.head?) h
  have h1 : someMessage.data = 'Y' :: someMessage.data.tail := by decide
  have h2 : perfectMessage.data = 'G' :: perfectMessage.data.tail := by decide
  simp only [String.data_append] at hd
  rw [h1, h2] at hd
  simp at hd

theorem improveMessage_append_ne (rest : String) : improveMessage ++ rest ≠ perfectMessage := by
  intro h
  have hd := congrArg (fun t => t.data.head?) h
  have h1 : improveMessage.data = 'Y' :: improveMessage.data.tail := by decide
  have h2 : perfectMessage.data = 'G' :: perfectMessage.data.tail := by decide
  simp only [String.data_append] at hd
  rw [h1, h2] at hd
  simp at hd

theorem makeFeedback_eq_perfect_iff (probability : ℚ) (a b : List String) :
    makeFeedback probability a b = perfectMessage ↔ probability = 100 := by
  unfold makeFeedback
  constructor
  · intro h
    by_contra hp
    rw [if_neg hp] at h
    split at h
    · rw [String.append_assoc, String.append_assoc] at h
      exact someMessage_append_ne _ h
    · rw [String.append_assoc, String.append_assoc] at h
      exact improveMessage_append_ne _ h
  · intro h
    rw [if_pos h]

theorem isFound_iff (toLowerCase : String → String) (resumeText item : String) :
    isFound toLowerCase resumeText item = true
      ↔ (toLowerCase item).data <:+: (toLowerCase resumeText).data := by
  unfold isFound
  exact includes_iff _ _

theorem isFound_empty (toLowerCase : String → String) (hempty : toLowerCase "" = "")
    (resumeText : String) : isFound toLowerCase resumeText "" = true := by
  unfold isFound
  rw [hempty]
  exact includes_empty _

theorem classify_missing_ne_empty (toLowerCase : String → String)
    (hempty : toLowerCase "" = "") (resumeText : String) (required : List String) :
    ∀ item ∈ (classify toLowerCase resumeText required).2, item ≠ "" := by
  intro item hitem hitem_empty
  rw [classify_eq] at hitem
  have := (List.mem_filter.mp hitem).2
  rw [hitem_empty, isFound_empty toLowerCase hempty] at this
  simp at this

theorem classify_missing_mem (toLowerCase : String → String) (resumeText : String)
    (required : List String) :
    ∀ item ∈ (classify toLowerCase resumeText required).2, item ∈ required := by
  intro item hitem
  rw [classify_eq] at hitem
  exact (List.mem_filter.mp hitem).1

theorem analyzeResume_eval (toLowerCase : String → String) (resumeText : String)
    (jobRole : JsVal) (excelData : List Row) (jobData : Row) (skillsField frameworksField : String)
    (skillsFound additionalSkills frameworksFound additionalFrameworks : List String) (n m : ℕ)
    (hfind : excelData.find? (fun item => decide (item.prop "JOB ROLES" = jobRole)) = some jobData)
    (hskills : jobData.prop "PROGRAMMING SKILLS" = JsVal.str skillsField)
    (hframeworks : jobData.prop "FRAMEWORKS" = JsVal.str frameworksField)
    (hs : classify toLowerCase resumeText (parseList skillsField)
      = (skillsFound, additionalSkills))
    (hf : classify toLowerCase resumeText (parseList frameworksField)
      = (frameworksFound, additionalFrameworks))
    (hn : (parseList skillsField).length = n) (hm : (parseList frameworksField).length = m) :
    analyzeResume toLowerCase resumeText jobRole excelData
    = Except.ok
        { jobRole := jobRole
          probability := (skillsFound.length : ℚ) / (n : ℚ) * 50
            + (frameworksFound.length : ℚ) / (m : ℚ) * 50
          additionalSkills := orElse (join additionalSkills ", ") "None"
          additionalFrameworks := orElse (join additionalFrameworks ", ") "None"
          feedback :=
            makeFeedback
              ((skillsFound.length : ℚ) / (n : ℚ) * 50
                + (frameworksFound.length : ℚ) / (m : ℚ) * 50)
              additionalSkills additionalFrameworks } := by
  rw [analyzeResume_matched toLowerCase resumeText jobRole excelData jobData skillsField
    frameworksField hfind hskills hframeworks]
  simp only [hs, hf, halfProbability, hn, hm]

theorem analyzeResume_backend_scenario :
    analyzeResume asciiLower "I know Python and Django" (JsVal.str "Backend Developer")
        backendDataset
      = Except.ok
          { jobRole := JsVal.str "Backend Developer"
            probability := 50
            additionalSkills := "Java"
            additionalFrameworks := "Spring"
            feedback := "You have some of the required skills and frameworks. Consider improving the following areas: Java, Spring" } := by
  rw [analyzeResume_eval asciiLower "I know Python and Django" (JsVal.str "Backend Developer")
    backendDataset backendRow "Python, Java" "Django, Spring" ["Python"] ["Java"] ["Django"]
    ["Spring"] 2 2 (by decide) (by decide) (by decide) (by decide) (by decide) (by decide)
    (by decide)]
  norm_num [makeFeedback]
  decide

theorem analyzeResume_congr (toLowerCase : String → String)
    (resumeText resumeText2 : String) (jobRole : JsVal) (excelData : List Row)
    (hcase : toLowerCase resumeText = toLowerCase resumeText2) :
    analyzeResume toLowerCase resumeText jobRole excelData
      = analyzeResume toLowerCase resumeText2 jobRole excelData := by
  have hfound : isFound toLowerCase resumeText = isFound toLowerCase resumeText2 := by
    funext item
    simp only [isFound, hcase]
  have hclass : classify toLowerCase resumeText = classify toLowerCase resumeText2 := by
    funext required
    simp only [classify, hfound]
  simp only [analyzeResume, hclass]

/-! ## Facts about double precision -/

theorem abs_roundHalfEven_sub (x : ℚ) : |(roundHalfEven x : ℚ) - x| ≤ 1 / 2 := by
  have h1 := Int.floor_le x
  have h2 := Int.lt_floor_add_one x
  unfold roundHalfEven
  rw [abs_le]
  split_ifs <;> push_cast <;> constructor <;> linarith

theorem roundHalfEven_le (x : ℚ) (N : ℤ) (h : x ≤ N) : roundHalfEven x ≤ N := by
  have h1 := Int.floor_le x
  have hfloor : ⌊x⌋ ≤ N := by exact_mod_cast h1.trans h
  have hstep : ¬ (x - ⌊x⌋ < 1 / 2) → ⌊x⌋ + 1 ≤ N := by
    intro hfrac
    have hlt : (⌊x⌋ : ℚ) < N := by linarith
    have : ⌊x⌋ < N := by exact_mod_cast hlt
    omega
  unfold roundHalfEven
  split_ifs with c1 c2 c3
  · exact hfloor
  · exact hstep c1
  · exact hfloor
  · exact hstep c1

theorem le_roundHalfEven (x : ℚ) (N : ℤ) (h : (N : ℚ) ≤ x) : N ≤ roundHalfEven x := by
  have hfloor : N ≤ ⌊x⌋ := Int.le_floor.mpr h
  unfold roundHalfEven
  split_ifs <;> omega

theorem roundHalfEven_intCast (z : ℤ) : roundHalfEven (z : ℚ) = z := by
  unfold roundHalfEven
  simp

theorem log_two_eq (q : ℚ) (e : ℤ) (hq : 0 < q) (hlo : (2 : ℚ) ^ e ≤ q)
    (hhi : q < (2 : ℚ) ^ (e + 1)) : Int.log 2 |q| = e := by
  rw [abs_of_pos hq]
  have h1 : e ≤ Int.log 2 q := by
    rw [← Int.zpow_le_iff_le_log (by norm_num) hq]
    simpa using hlo
  have h2 : Int.log 2 q < e + 1 := by
    rw [← Int.lt_zpow_iff_log_lt (by norm_num) hq]
    simpa using hhi
  omega

theorem roundDouble_eval (q : ℚ) (e z : ℤ) (hq : 0 < q) (hlo : (2 : ℚ) ^ e ≤ q)
    (hhi : q < (2 : ℚ) ^ (e + 1)) (hz : roundHalfEven (q * 2 ^ (52 - e)) = z) :
    roundDouble q = (z : ℚ) * 2 ^ (e - 52) := by
  unfold roundDouble
  rw [if_neg (ne_of_gt hq), log_two_eq q e hq hlo hhi, hz]

theorem roundHalfEven_of_lt (x : ℚ) (f : ℤ) (h1 : (f : ℚ) ≤ x) (h2 : x - f < 1 / 2) :
    roundHalfEven x = f := by
  have hf : ⌊x⌋ = f := by
    rw [Int.floor_eq_iff]
    constructor
    · exact h1
    · linarith
  unfold roundHalfEven
  rw [hf, if_pos h2]

theorem roundDouble_zero : roundDouble 0 = 0 := by
  unfold roundDouble
  rw [if_pos rfl]

theorem roundDouble_scale (q : ℚ) :
    q * 2 ^ (52 - Int.log 2 |q|) * 2 ^ (Int.log 2 |q| - 52) = q := by
  rw [mul_assoc, ← zpow_add₀ (two_ne_zero : (2 : ℚ) ≠ 0)]
  have : 52 - Int.log 2 |q| + (Int.log 2 |q| - 52) = 0 := by ring
  rw [this, zpow_zero, mul_one]

theorem roundDouble_nonneg (q : ℚ) (hq : 0 ≤ q) : 0 ≤ roundDouble q := by
  rcases eq_or_lt_of_le hq with h | h
  · rw [← h, roundDouble_zero]
  · unfold roundDouble
    rw [if_neg (ne_of_gt h)]
    have hx : ((0 : ℤ) : ℚ) ≤ q * 2 ^ (52 - Int.log 2 |q|) := by
      push_cast
      positivity
    have hr : (0 : ℤ) ≤ roundHalfEven (q * 2 ^ (52 - Int.log 2 |q|)) := le_roundHalfEven _ _ hx
    have hr' : (0 : ℚ) ≤ (roundHalfEven (q * 2 ^ (52 - Int.log 2 |q|)) : ℚ) := by
      exact_mod_cast hr
    positivity

theorem roundDouble_error (q : ℚ) (hq : 0 ≤ q) : |roundDouble q - q| ≤ q / 2 ^ 53 := by
  rcases eq_or_lt_of_le hq with h | h
  · rw [← h, roundDouble_zero]
    norm_num
  · have hlog : (2 : ℚ) ^ Int.log 2 |q| ≤ q := by
      rw [abs_of_pos h]
      simpa using Int.zpow_log_le_self (b := 2) (by norm_num) h
    have hpow : (0 : ℚ) < 2 ^ (Int.log 2 |q| - 52) := by positivity
    have hround := abs_roundHalfEven_sub (q * 2 ^ (52 - Int.log 2 |q|))
    have hdiff : roundDouble q - q
        = ((roundHalfEven (q * 2 ^ (52 - Int.log 2 |q|)) : ℚ) - q * 2 ^ (52 - Int.log 2 |q|))
          * 2 ^ (Int.log 2 |q| - 52) := by
      rw [sub_mul, roundDouble_scale q]
      unfold roundDouble
      rw [if_neg (ne_of_gt h)]
    have hsplit : (2 : ℚ) ^ (Int.log 2 |q| - 52) = 2 ^ Int.log 2 |q| / 2 ^ 52 := by
      rw [zpow_sub₀ (two_ne_zero : (2 : ℚ) ≠ 0)]
      norm_num
    rw [hdiff, abs_mul, abs_of_pos hpow]
    calc |(roundHalfEven (q * 2 ^ (52 - Int.log 2 |q|)) : ℚ) - q * 2 ^ (52 - Int.log 2 |q|)|
          * 2 ^ (Int.log 2 |q| - 52)
        ≤ 1 / 2 * 2 ^ (Int.log 2 |q| - 52) := mul_le_mul_of_nonneg_right hround hpow.le
      _ = 2 ^ Int.log 2 |q| / 2 ^ 53 := by rw [hsplit]; ring
      _ ≤ q / 2 ^ 53 := by
        apply div_le_div_of_nonneg_right hlog
        positivity

theorem roundDouble_le_natCast (q : ℚ) (N : ℕ) (hq : 0 ≤ q) (hN : N < 2 ^ 53)
    (h : q ≤ N) : roundDouble q ≤ N := by
  rcases eq_or_lt_of_le hq with h0 | h0
  · rw [← h0, roundDouble_zero]
    positivity
  · have hlt : q < (2 : ℚ) ^ (53 : ℤ) := by
      have : (N : ℚ) < 2 ^ 53 := by exact_mod_cast hN
      have h53 : (2 : ℚ) ^ (53 : ℤ) = 2 ^ 53 := by norm_num
      rw [h53]
      linarith
    have hlog : Int.log 2 |q| < 53 := by
      rw [abs_of_pos h0, ← Int.lt_zpow_iff_log_lt (by norm_num) h0]
      simpa using hlt
    obtain ⟨t, ht⟩ : ∃ t : ℕ, 52 - Int.log 2 |q| = (t : ℤ) :=
      ⟨(52 - Int.log 2 |q|).toNat, (Int.toNat_of_nonneg (by omega)).symm⟩
    have hx : q * 2 ^ (52 - Int.log 2 |q|) ≤ ((N * 2 ^ t : ℕ) : ℤ) := by
      rw [ht, zpow_natCast]
      push_cast
      exact mul_le_mul_of_nonneg_right h (by positivity)
    have hr := roundHalfEven_le _ _ hx
    have hr1 : (roundHalfEven (q * 2 ^ (52 - Int.log 2 |q|)) : ℚ) ≤ (N : ℚ) * 2 ^ t := by
      exact_mod_cast hr
    have hr' : (roundHalfEven (q * 2 ^ (52 - Int.log 2 |q|)) : ℚ)
        ≤ (N : ℚ) * 2 ^ (52 - Int.log 2 |q|) :=
      hr1.trans (le_of_eq (by rw [ht, zpow_natCast]))
    have hpow : (0 : ℚ) < 2 ^ (Int.log 2 |q| - 52) := by positivity
    unfold roundDouble
    rw [if_neg (ne_of_gt h0)]
    calc (roundHalfEven (q * 2 ^ (52 - Int.log 2 |q|)) : ℚ) * 2 ^ (Int.log 2 |q| - 52)
        ≤ (N : ℚ) * 2 ^ (52 - Int.log 2 |q|) * 2 ^ (Int.log 2 |q| - 52) :=
          mul_le_mul_of_nonneg_right hr' hpow.le
      _ = N := by
        rw [mul_assoc, ← zpow_add₀ (two_ne_zero : (2 : ℚ) ≠ 0)]
        have : 52 - Int.log 2 |q| + (Int.log 2 |q| - 52) = 0 := by ring
        rw [this, zpow_zero, mul_one]

theorem roundDouble_exact (q : ℚ) (e z : ℤ) (hq : 0 < q) (hlo : (2 : ℚ) ^ e ≤ q)
    (hhi : q < (2 : ℚ) ^ (e + 1)) (hz : q * 2 ^ (52 - e) = (z : ℚ)) : roundDouble q = q := by
  have hround : roundHalfEven (q * 2 ^ (52 - e)) = z := by
    rw [hz]
    exact roundHalfEven_intCast z
  rw [roundDouble_eval q e z hq hlo hhi hround, ← hz, mul_assoc,
    ← zpow_add₀ (two_ne_zero : (2 : ℚ) ≠ 0)]
  have : 52 - e + (e - 52) = 0 := by ring
  rw [this, zpow_zero, mul_one]

theorem halfProbabilityDouble_bounds (found required : List String)
    (h : found.length ≤ required.length) :
    0 ≤ halfProbabilityDouble found required ∧ halfProbabilityDouble found required ≤ 50 ∧
    |halfProbabilityDouble found required - halfProbability found required| ≤ 100 / 2 ^ 53 := by
  have hq0 : (0 : ℚ) ≤ (found.length : ℚ) / (required.length : ℚ) := by positivity
  have hq1 : (found.length : ℚ) / (required.length : ℚ) ≤ 1 :=
    div_le_one_of_le₀ (by exact_mod_cast h) (by positivity)
  have ha0 := roundDouble_nonneg _ hq0
  have ha1 : roundDouble ((found.length : ℚ) / (required.length : ℚ)) ≤ ((1 : ℕ) : ℚ) :=
    roundDouble_le_natCast _ 1 hq0 (by norm_num) (by simpa using hq1)
  have haerr := abs_le.mp (roundDouble_error _ hq0)
  have hp0 : (0 : ℚ) ≤ roundDouble ((found.length : ℚ) / (required.length : ℚ)) * 50 := by
    positivity
  have hp1 : roundDouble ((found.length : ℚ) / (required.length : ℚ)) * 50 ≤ ((50 : ℕ) : ℚ) := by
    push_cast at ha1 ⊢
    linarith
  have hb0 := roundDouble_nonneg _ hp0
  have hb1 := roundDouble_le_natCast _ 50 hp0 (by norm_num) hp1
  have hberr := abs_le.mp (roundDouble_error _ hp0)
  push_cast at ha1 hb1
  refine ⟨hb0, hb1, ?_⟩
  unfold halfProbabilityDouble halfProbability
  rw [abs_le]
  constructor
  · have e1 : roundDouble ((found.length : ℚ) / (required.length : ℚ)) * 50 / 2 ^ 53
        ≤ 50 / 2 ^ 53 := by
      apply div_le_div_of_nonneg_right _ (by positivity)
      linarith
    have e2 : (found.length : ℚ) / (required.length : ℚ) / 2 ^ 53 ≤ 1 / 2 ^ 53 :=
      div_le_div_of_nonneg_right hq1 (by positivity)
    linarith [hberr.1, haerr.1]
  · have e1 : roundDouble ((found.length : ℚ) / (required.length : ℚ)) * 50 / 2 ^ 53
        ≤ 50 / 2 ^ 53 := by
      apply div_le_div_of_nonneg_right _ (by positivity)
      linarith
    have e2 : (found.length : ℚ) / (required.length : ℚ) / 2 ^ 53 ≤ 1 / 2 ^ 53 :=
      div_le_div_of_nonneg_right hq1 (by positivity)
    linarith [hberr.2, haerr.2]

theorem probabilityDouble_bounds (skillsFound requiredSkills frameworksFound
    requiredFrameworks : List String) (hs : skillsFound.length ≤ requiredSkills.length)
    (hf : frameworksFound.length ≤ requiredFrameworks.length) :
    0 ≤ roundDouble (halfProbabilityDouble skillsFound requiredSkills
        + halfProbabilityDouble frameworksFound requiredFrameworks) ∧
    roundDouble (halfProbabilityDouble skillsFound requiredSkills
        + halfProbabilityDouble frameworksFound requiredFrameworks) ≤ 100 ∧
    |roundDouble (halfProbabilityDouble skillsFound requiredSkills
          + halfProbabilityDouble frameworksFound requiredFrameworks)
        - (halfProbability skillsFound requiredSkills
          + halfProbability frameworksFound requiredFrameworks)| ≤ 300 / 2 ^ 53 := by
  obtain ⟨a0, a1, aerr⟩ := halfProbabilityDouble_bounds skillsFound requiredSkills hs
  obtain ⟨b0, b1, berr⟩ := halfProbabilityDouble_bounds frameworksFound requiredFrameworks hf
  have hsum0 : (0 : ℚ) ≤ halfProbabilityDouble skillsFound requiredSkills
      + halfProbabilityDouble frameworksFound requiredFrameworks := by linarith
  have hsum1 : halfProbabilityDouble skillsFound requiredSkills
      + halfProbabilityDouble frameworksFound requiredFrameworks ≤ ((100 : ℕ) : ℚ) := by
    push_cast
    linarith
  have hr0 := roundDouble_nonneg _ hsum0
  have hr1 := roundDouble_le_natCast _ 100 hsum0 (by norm_num) hsum1
  have hrerr := abs_le.mp (roundDouble_error _ hsum0)
  have e1 : (halfProbabilityDouble skillsFound requiredSkills
      + halfProbabilityDouble frameworksFound requiredFrameworks) / 2 ^ 53 ≤ 100 / 2 ^ 53 := by
    apply div_le_div_of_nonneg_right _ (by positivity)
    linarith
  have aerr' := abs_le.mp aerr
  have berr' := abs_le.mp berr
  push_cast at hr1
  refine ⟨hr0, hr1, ?_⟩
  rw [abs_le]
  constructor
  · linarith [hrerr.1, aerr'.1, berr'.1]
  · linarith [hrerr.2, aerr'.2, berr'.2]

theorem analyzeResumeDouble_matched (toLowerCase : String → String) (resumeText : String)
    (jobRole : JsVal) (excelData : List Row) (jobData : Row) (skillsField frameworksField : String)
    (hfind : excelData.find? (fun item => decide (item.prop "JOB ROLES" = jobRole)) = some jobData)
    (hskills : jobData.prop "PROGRAMMING SKILLS" = JsVal.str skillsField)
    (hframeworks : jobData.prop "FRAMEWORKS" = JsVal.str frameworksField) :
    analyzeResumeDouble toLowerCase resumeText jobRole excelData
    = Except.ok
        { jobRole := jobRole
          probability :=
            roundDouble
              (halfProbabilityDouble (classify toLowerCase resumeText (parseList skillsField)).1
                  (parseList skillsField)
                + halfProbabilityDouble
                  (classify toLowerCase resumeText (parseList frameworksField)).1
                  (parseList frameworksField))
          additionalSkills :=
            orElse (join (classify toLowerCase resumeText (parseList skillsField)).2 ", ") "None"
          additionalFrameworks :=
            orElse (join (classify toLowerCase resumeText (parseList frameworksField)).2 ", ")
              "None"
          feedback :=
            makeFeedback
              (roundDouble
                (halfProbabilityDouble (classify toLowerCase resumeText (parseList skillsField)).1
                    (parseList skillsField)
                  + halfProbabilityDouble
                    (classify toLowerCase resumeText (parseList frameworksField)).1
                    (parseList frameworksField)))
              (classify toLowerCase resumeText (parseList skillsField)).2
              (classify toLowerCase resumeText (parseList frameworksField)).2 } := by
  unfold analyzeResumeDouble
  rw [hfind]
  simp only [hskills, hframeworks]

theorem analyzeResumeDouble_eq_analyzeResume (toLowerCase : String → String)
    (resumeText : String) (jobRole : JsVal) (excelData : List Row) (jobData : Row)
    (skillsField frameworksField : String)
    (hfind : excelData.find? (fun item => decide (item.prop "JOB ROLES" = jobRole)) = some jobData)
    (hskills : jobData.prop "PROGRAMMING SKILLS" = JsVal.str skillsField)
    (hframeworks : jobData.prop "FRAMEWORKS" = JsVal.str frameworksField)
    (hs : halfProbabilityDouble (classify toLowerCase resumeText (parseList skillsField)).1
        (parseList skillsField)
      = halfProbability (classify toLowerCase resumeText (parseList skillsField)).1
        (parseList skillsField))
    (hf : halfProbabilityDouble (classify toLowerCase resumeText (parseList frameworksField)).1
        (parseList frameworksField)
      = halfProbability (classify toLowerCase resumeText (parseList frameworksField)).1
        (parseList frameworksField))
    (hsum : roundDouble
        (halfProbability (classify toLowerCase resumeText (parseList skillsField)).1
            (parseList skillsField)
          + halfProbability (classify toLowerCase resumeText (parseList frameworksField)).1
            (parseList frameworksField))
      = halfProbability (classify toLowerCase resumeText (parseList skillsField)).1
          (parseList skillsField)
        + halfProbability (classify toLowerCase resumeText (parseList frameworksField)).1
          (parseList frameworksField)) :
    analyzeResumeDouble toLowerCase resumeText jobRole excelData
      = analyzeResume toLowerCase resumeText jobRole excelData := by
  rw [analyzeResumeDouble_matched toLowerCase resumeText jobRole excelData jobData skillsField
      frameworksField hfind hskills hframeworks,
    analyzeResume_matched toLowerCase resumeText jobRole excelData jobData skillsField
      frameworksField hfind hskills hframeworks, hs, hf, hsum]

/-! ## The claims about `analyzeResume` -/

/-- C1, amended: for a résumé text and a dataset row matching the job role whose two
fields are strings, `analyzeResume` returns the probability computed in double precision,
`fl(fl(fl(k/n)*50) + fl(fl(j/m)*50))` with `fl` the rounding to the nearest double, where
`n`, `m` are the numbers of parsed skills and frameworks (both positive) and `k`, `j` count
the skills and frameworks whose lowercase form is a substring of the lowercased résumé
text; this value differs from the exact rational `50*(k/n) + 50*(j/m)` by at most
`300 / 2^53`, and it lies in `[0, 100]`. -/
theorem analyzeResumeDouble_probability (toLowerCase : String → String) (resumeText : String)
    (jobRole : JsVal) (excelData : List Row) (jobData : Row) (skillsField frameworksField : String)
    (hfind : excelData.find? (fun item => decide (item.prop "JOB ROLES" = jobRole)) = some jobData)
    (hskills : jobData.prop "PROGRAMMING SKILLS" = JsVal.str skillsField)
    (hframeworks : jobData.prop "FRAMEWORKS" = JsVal.str frameworksField) :
    0 < (parseList skillsField).length ∧ 0 < (parseList frameworksField).length ∧
    ∃ r, analyzeResumeDouble toLowerCase resumeText jobRole excelData = Except.ok r ∧
      r.probability
        = roundDouble
            (roundDouble (roundDouble
                (((parseList skillsField).countP (fun item =>
                    decide ((toLowerCase item).data <:+: (toLowerCase resumeText).data)) : ℚ)
                  / ((parseList skillsField).length : ℚ)) * 50)
              + roundDouble (roundDouble
                (((parseList frameworksField).countP (fun item =>
                    decide ((toLowerCase item).data <:+: (toLowerCase resumeText).data)) : ℚ)
                  / ((parseList frameworksField).length : ℚ)) * 50)) ∧
      |r.probability
          - (50 * (((parseList skillsField).countP (fun item =>
                decide ((toLowerCase item).data <:+: (toLowerCase resumeText).data)) : ℚ)
              / ((parseList skillsField).length : ℚ))
            + 50 * (((parseList frameworksField).countP (fun item =>
                decide ((toLowerCase item).data <:+: (toLowerCase resumeText).data)) : ℚ)
              / ((parseList frameworksField).length : ℚ)))| ≤ 300 / 2 ^ 53 ∧
      0 ≤ r.probability ∧ r.probability ≤ 100 := by
  obtain ⟨h0, h100, herr⟩ := probabilityDouble_bounds
    (classify toLowerCase resumeText (parseList skillsField)).1 (parseList skillsField)
    (classify toLowerCase resumeText (parseList frameworksField)).1 (parseList frameworksField)
    (classify_found_length_le toLowerCase resumeText (parseList skillsField))
    (classify_found_length_le toLowerCase resumeText (parseList frameworksField))
  refine ⟨parseList_length_pos _, parseList_length_pos _, _,
    analyzeResumeDouble_matched toLowerCase resumeText jobRole excelData jobData skillsField
      frameworksField hfind hskills hframeworks, ?_, ?_, h0, h100⟩
  · simp only [halfProbabilityDouble, classify_found_length]
  · have hexact : halfProbability (classify toLowerCase resumeText (parseList skillsField)).1
          (parseList skillsField)
        + halfProbability (classify toLowerCase resumeText (parseList frameworksField)).1
          (parseList frameworksField)
        = 50 * (((parseList skillsField).countP (fun item =>
              decide ((toLowerCase item).data <:+: (toLowerCase resumeText).data)) : ℚ)
            / ((parseList skillsField).length : ℚ))
          + 50 * (((parseList frameworksField).countP (fun item =>
              decide ((toLowerCase item).data <:+: (toLowerCase resumeText).data)) : ℚ)
            / ((parseList frameworksField).length : ℚ)) := by
      simp only [halfProbability, classify_found_length]
      ring
    rw [← hexact]
    exact herr

/-- C2: when no row of the dataset has a `JOB ROLES` value strictly equal to the requested
job role, `analyzeResume` returns (it does not throw) the result with probability 0, the
requested job role echoed, and `additionalSkills`, `additionalFrameworks` and `feedback` all
equal to "Job role not found in the dataset", which is not the text "None". -/
theorem analyzeResume_role_not_found (toLowerCase : String → String) (resumeText : String)
    (jobRole : JsVal) (excelData : List Row)
    (hnone : ∀ item ∈ excelData, item.prop "JOB ROLES" ≠ jobRole) :
    analyzeResume toLowerCase resumeText jobRole excelData
      = Except.ok
          { jobRole := jobRole
            probability := 0
            additionalSkills := "Job role not found in the dataset"
            additionalFrameworks := "Job role not found in the dataset"
            feedback := "Job role not found in the dataset" }
    ∧ "Job role not found in the dataset" ≠ "None" := by
  have hfind : excelData.find? (fun item => decide (item.prop "JOB ROLES" = jobRole)) = none := by
    rw [List.find?_eq_none]
    intro item hitem
    simpa using hnone item hitem
  refine ⟨?_, by decide⟩
  unfold analyzeResume
  rw [hfind]
  rfl

/-- C4: for a matched role, a résumé text that contains (case-insensitively, as substrings)
every required skill and every required framework gets probability exactly 100 and the
feedback "Great job! You are a perfect match for this role!" with nothing appended; and
that feedback is returned only when every required item is found. -/
theorem analyzeResume_perfect_match (toLowerCase : String → String) (resumeText : String)
    (jobRole : JsVal) (excelData : List Row) (jobData : Row) (skillsField frameworksField : String)
    (hfind : excelData.find? (fun item => decide (item.prop "JOB ROLES" = jobRole)) = some jobData)
    (hskills : jobData.prop "PROGRAMMING SKILLS" = JsVal.str skillsField)
    (hframeworks : jobData.prop "FRAMEWORKS" = JsVal.str frameworksField) :
    ∃ r, analyzeResume toLowerCase resumeText jobRole excelData = Except.ok r ∧
      (((∀ item ∈ parseList skillsField,
            (toLowerCase item).data <:+: (toLowerCase resumeText).data) ∧
          (∀ item ∈ parseList frameworksField,
            (toLowerCase item).data <:+: (toLowerCase resumeText).data)) →
        r.probability = 100 ∧
          r.feedback = "Great job! You are a perfect match for this role!") ∧
      (r.feedback = "Great job! You are a perfect match for this role!" →
        (∀ item ∈ parseList skillsField,
            (toLowerCase item).data <:+: (toLowerCase resumeText).data) ∧
          (∀ item ∈ parseList frameworksField,
            (toLowerCase item).data <:+: (toLowerCase resumeText).data)) := by
  refine ⟨_, analyzeResume_matched toLowerCase resumeText jobRole excelData jobData skillsField
      frameworksField hfind hskills hframeworks, ?_, ?_⟩
  · rintro ⟨hs, hf⟩
    have h1 : halfProbability (classify toLowerCase resumeText (parseList skillsField)).1
        (parseList skillsField) = 50 :=
      (halfProbability_eq_fifty_iff _ _ (parseList_length_pos _)).mpr
        ((classify_found_all_iff _ _ _).mpr (fun item hi => (isFound_iff _ _ _).mpr (hs item hi)))
    have h2 : halfProbability (classify toLowerCase resumeText (parseList frameworksField)).1
        (parseList frameworksField) = 50 :=
      (halfProbability_eq_fifty_iff _ _ (parseList_length_pos _)).mpr
        ((classify_found_all_iff _ _ _).mpr (fun item hi => (isFound_iff _ _ _).mpr (hf item hi)))
    have hp : halfProbability (classify toLowerCase resumeText (parseList skillsField)).1
          (parseList skillsField)
        + halfProbability (classify toLowerCase resumeText (parseList frameworksField)).1
          (parseList frameworksField) = 100 := by
      rw [h1, h2]
      norm_num
    exact ⟨hp, (makeFeedback_eq_perfect_iff _ _ _).mpr hp⟩
  · intro hfb
    have hp := (makeFeedback_eq_perfect_iff _ _ _).mp hfb
    have l1 := halfProbability_le _ _
      (classify_found_length_le toLowerCase resumeText (parseList skillsField))
    have l2 := halfProbability_le _ _
      (classify_found_length_le toLowerCase resumeText (parseList frameworksField))
    have h1 : halfProbability (classify toLowerCase resumeText (parseList skillsField)).1
        (parseList skillsField) = 50 := by linarith
    have h2 : halfProbability (classify toLowerCase resumeText (parseList frameworksField)).1
        (parseList frameworksField) = 50 := by linarith
    constructor
    · intro item hi
      exact (isFound_iff _ _ _).mp ((classify_found_all_iff _ _ _).mp
        ((halfProbability_eq_fifty_iff _ _ (parseList_length_pos _)).mp h1) item hi)
    · intro item hi
      exact (isFound_iff _ _ _).mp ((classify_found_all_iff _ _ _).mp
        ((halfProbability_eq_fifty_iff _ _ (parseList_length_pos _)).mp h2) item hi)

/-- C7: for a matched role, the found and missing arrays built by `analyzeResume` partition
the required list in order: both are subsequences of the required list, every required item
lies in exactly one of them, and the two lengths add up to the number of required items;
this holds for skills and for frameworks, and the result of `analyzeResume` is computed
from these arrays. -/
theorem analyzeResume_partition (toLowerCase : String → String) (resumeText : String)
    (jobRole : JsVal) (excelData : List Row) (jobData : Row) (skillsField frameworksField : String)
    (hfind : excelData.find? (fun item => decide (item.prop "JOB ROLES" = jobRole)) = some jobData)
    (hskills : jobData.prop "PROGRAMMING SKILLS" = JsVal.str skillsField)
    (hframeworks : jobData.prop "FRAMEWORKS" = JsVal.str frameworksField) :
    ∃ skillsFound additionalSkills frameworksFound additionalFrameworks : List String,
      classify toLowerCase resumeText (parseList skillsField) = (skillsFound, additionalSkills) ∧
      classify toLowerCase resumeText (parseList frameworksField)
        = (frameworksFound, additionalFrameworks) ∧
      (∃ r, analyzeResume toLowerCase resumeText jobRole excelData = Except.ok r ∧
        r.probability = halfProbability skillsFound (parseList skillsField)
          + halfProbability frameworksFound (parseList frameworksField) ∧
        r.additionalSkills = orElse (join additionalSkills ", ") "None" ∧
        r.additionalFrameworks = orElse (join additionalFrameworks ", ") "None") ∧
      List.Sublist skillsFound (parseList skillsField) ∧
      List.Sublist additionalSkills (parseList skillsField) ∧
      (∀ item ∈ parseList skillsField,
        (item ∈ skillsFound ∧ item ∉ additionalSkills)
          ∨ (item ∉ skillsFound ∧ item ∈ additionalSkills)) ∧
      skillsFound.length + additionalSkills.length = (parseList skillsField).length ∧
      List.Sublist frameworksFound (parseList frameworksField) ∧
      List.Sublist additionalFrameworks (parseList frameworksField) ∧
      (∀ item ∈ parseList frameworksField,
        (item ∈ frameworksFound ∧ item ∉ additionalFrameworks)
          ∨ (item ∉ frameworksFound ∧ item ∈ additionalFrameworks)) ∧
      frameworksFound.length + additionalFrameworks.length
        = (parseList frameworksField).length := by
  have key : ∀ required : List String,
      List.Sublist (required.filter (fun item => isFound toLowerCase resumeText item)) required ∧
      List.Sublist (required.filter (fun item => !isFound toLowerCase resumeText item)) required ∧
      (∀ item ∈ required,
        (item ∈ required.filter (fun item => isFound toLowerCase resumeText item)
            ∧ item ∉ required.filter (fun item => !isFound toLowerCase resumeText item))
          ∨ (item ∉ required.filter (fun item => isFound toLowerCase resumeText item)
            ∧ item ∈ required.filter (fun item => !isFound toLowerCase resumeText item))) ∧
      (required.filter (fun item => isFound toLowerCase resumeText item)).length
        + (required.filter (fun item => !isFound toLowerCase resumeText item)).length
        = required.length := by
    intro required
    refine ⟨List.filter_sublist _, List.filter_sublist _, ?_, ?_⟩
    · intro item hitem
      cases h : isFound toLowerCase resumeText item <;> simp [List.mem_filter, hitem, h]
    · have := (List.filter_append_perm (fun item => isFound toLowerCase resumeText item)
        required).length_eq
      simpa using this
  obtain ⟨a1, a2, a3, a4⟩ := key (parseList skillsField)
  obtain ⟨b1, b2, b3, b4⟩ := key (parseList frameworksField)
  refine ⟨_, _, _, _, classify_eq _ _ _, classify_eq _ _ _, ⟨_,
    analyzeResume_matched toLowerCase resumeText jobRole excelData jobData skillsField
      frameworksField hfind hskills hframeworks, ?_, ?_, ?_⟩, a1, a2, a3, a4, b1, b2, b3, b4⟩
  · simp only [classify_eq]
  · simp only [classify_eq]
  · simp only [classify_eq]

/-- C10: the lists parsed from string fields (split on `,`, then trim) are never empty, so
neither divisor of the probability computation is zero; the empty field parses to the
one-element list `[""]`, whose empty token is found in every résumé text, so a matched row
with an empty skills field gets 50 for the skills half of the score. -/
theorem parseList_never_empty (toLowerCase : String → String) (hempty : toLowerCase "" = "") :
    (∀ field : String, parseList field ≠ [] ∧ ((parseList field).length : ℚ) ≠ 0) ∧
    parseList "" = [""] ∧
    (∀ resumeText : String, classify toLowerCase resumeText (parseList "") = ([""], [])) ∧
    (∀ resumeText : String,
      halfProbability (classify toLowerCase resumeText (parseList "")).1 (parseList "") = 50) ∧
    (∀ (resumeText : String) (jobRole : JsVal) (excelData : List Row) (jobData : Row)
        (frameworksField : String),
      excelData.find? (fun item => decide (item.prop "JOB ROLES" = jobRole)) = some jobData →
      jobData.prop "PROGRAMMING SKILLS" = JsVal.str "" →
      jobData.prop "FRAMEWORKS" = JsVal.str frameworksField →
      ∃ r, analyzeResume toLowerCase resumeText jobRole excelData = Except.ok r ∧
        r.probability = 50
          + halfProbability (classify toLowerCase resumeText (parseList frameworksField)).1
              (parseList frameworksField)) := by
  have hparse : parseList "" = [""] := by decide
  have hclass : ∀ resumeText : String,
      classify toLowerCase resumeText (parseList "") = ([""], []) := by
    intro resumeText
    rw [hparse, classify_eq]
    simp [isFound_empty toLowerCase hempty]
  have hhalf : ∀ resumeText : String,
      halfProbability (classify toLowerCase resumeText (parseList "")).1 (parseList "") = 50 := by
    intro resumeText
    rw [hclass, hparse]
    norm_num [halfProbability]
  refine ⟨?_, hparse, hclass, hhalf, ?_⟩
  · intro field
    refine ⟨parseList_ne_nil field, ?_⟩
    have := parseList_length_pos field
    exact_mod_cast (Nat.pos_iff_ne_zero.mp this)
  · intro resumeText jobRole excelData jobData frameworksField hfind hskills hframeworks
    refine ⟨_, analyzeResume_matched toLowerCase resumeText jobRole excelData jobData ""
      frameworksField hfind hskills hframeworks, ?_⟩
    simp only [hhalf]

/-- C1, refuted as stated: one of three skills and none of one framework are found, and
the probability returned is the double 16.666666666666664, which is
`2345624805922133 / 2^47` and not the rational `50*(1/3) + 50*(0/1)`.  With one of three
skills and two of three frameworks found, the probability returned is the double
49.99999999999999, not 50. -/
theorem analyzeResumeDouble_probability_not_exact :
    (∃ r, analyzeResumeDouble asciiLower "I know Python" (JsVal.str "Developer") [thirdsRow]
        = Except.ok r ∧
      (parseList "Python, Java, Rust").countP (fun item =>
        decide ((asciiLower item).data <:+: (asciiLower "I know Python").data)) = 1 ∧
      (parseList "Python, Java, Rust").length = 3 ∧
      (parseList "Django").countP (fun item =>
        decide ((asciiLower item).data <:+: (asciiLower "I know Python").data)) = 0 ∧
      (parseList "Django").length = 1 ∧
      r.probability = 2345624805922133 / 140737488355328 ∧
      r.probability ≠ 50 * ((1 : ℚ) / 3) + 50 * ((0 : ℚ) / 1)) ∧
    (∃ r, analyzeResumeDouble asciiLower "I know Python, Django and Flask"
        (JsVal.str "Developer") [sixItemsRow] = Except.ok r ∧
      (parseList "Python, Java, Rust").countP (fun item =>
        decide ((asciiLower item).data
          <:+: (asciiLower "I know Python, Django and Flask").data)) = 1 ∧
      (parseList "Django, Spring, Flask").countP (fun item =>
        decide ((asciiLower item).data
          <:+: (asciiLower "I know Python, Django and Flask").data)) = 2 ∧
      (parseList "Django, Spring, Flask").length = 3 ∧
      r.probability = 7036874417766399 / 140737488355328 ∧
      r.probability ≠ 50 * ((1 : ℚ) / 3) + 50 * ((2 : ℚ) / 3)) := by
  have hthird : roundDouble ((1 : ℚ) / 3) = 6004799503160661 / 18014398509481984 := by
    rw [roundDouble_eval (1 / 3) (-2) 6004799503160661 (by norm_num) (by norm_num) (by norm_num)
      (roundHalfEven_of_lt _ _ (by norm_num) (by norm_num))]
    norm_num
  have hthird50 : roundDouble ((6004799503160661 : ℚ) / 18014398509481984 * 50)
      = 2345624805922133 / 140737488355328 := by
    rw [roundDouble_eval _ 4 4691249611844266 (by norm_num) (by norm_num) (by norm_num)
      (roundHalfEven_of_lt _ _ (by norm_num) (by norm_num))]
    norm_num
  have htwo : roundDouble ((2 : ℚ) / 3) = 6004799503160661 / 9007199254740992 := by
    rw [roundDouble_eval (2 / 3) (-1) 6004799503160661 (by norm_num) (by norm_num) (by norm_num)
      (roundHalfEven_of_lt _ _ (by norm_num) (by norm_num))]
    norm_num
  have htwo50 : roundDouble ((6004799503160661 : ℚ) / 9007199254740992 * 50)
      = 2345624805922133 / 70368744177664 := by
    rw [roundDouble_eval _ 5 4691249611844266 (by norm_num) (by norm_num) (by norm_num)
      (roundHalfEven_of_lt _ _ (by norm_num) (by norm_num))]
    norm_num
  have hsum1 : roundDouble ((2345624805922133 : ℚ) / 140737488355328 + 0)
      = 2345624805922133 / 140737488355328 := by
    rw [add_zero]
    exact roundDouble_exact _ 4 4691249611844266 (by norm_num) (by norm_num) (by norm_num)
      (by norm_num)
  have hsum2 : roundDouble ((2345624805922133 : ℚ) / 140737488355328
      + 2345624805922133 / 70368744177664) = 7036874417766399 / 140737488355328 := by
    have hval : (2345624805922133 : ℚ) / 140737488355328 + 2345624805922133 / 70368744177664
        = 7036874417766399 / 140737488355328 := by norm_num
    rw [hval]
    exact roundDouble_exact _ 5 7036874417766399 (by norm_num) (by norm_num) (by norm_num)
      (by norm_num)
  have hs : classify asciiLower "I know Python" (parseList "Python, Java, Rust")
      = (["Python"], ["Java", "Rust"]) := by decide
  have hf : classify asciiLower "I know Python" (parseList "Django") = ([], ["Django"]) := by
    decide
  have hs2 : classify asciiLower "I know Python, Django and Flask"
      (parseList "Python, Java, Rust") = (["Python"], ["Java", "Rust"]) := by decide
  have hf2 : classify asciiLower "I know Python, Django and Flask"
      (parseList "Django, Spring, Flask") = (["Django", "Flask"], ["Spring"]) := by decide
  have hn : (parseList "Python, Java, Rust").length = 3 := by decide
  have hm : (parseList "Django").length = 1 := by decide
  have hm2 : (parseList "Django, Spring, Flask").length = 3 := by decide
  have hA : halfProbabilityDouble ["Python"] (parseList "Python, Java, Rust")
      = 2345624805922133 / 140737488355328 := by
    have hq : ((["Python"].length : ℕ) : ℚ) / ((3 : ℕ) : ℚ) = 1 / 3 := by norm_num
    unfold halfProbabilityDouble
    rw [hn, hq, hthird, hthird50]
  have hB : halfProbabilityDouble [] (parseList "Django") = 0 := by
    have hq : ((([] : List String).length : ℕ) : ℚ) / ((1 : ℕ) : ℚ) = 0 := by norm_num
    unfold halfProbabilityDouble
    rw [hm, hq, roundDouble_zero, zero_mul, roundDouble_zero]
  have hC : halfProbabilityDouble ["Django", "Flask"] (parseList "Django, Spring, Flask")
      = 2345624805922133 / 70368744177664 := by
    have hq : ((["Django", "Flask"].length : ℕ) : ℚ) / ((3 : ℕ) : ℚ) = 2 / 3 := by norm_num
    unfold halfProbabilityDouble
    rw [hm2, hq, htwo, htwo50]
  constructor
  · refine ⟨_, analyzeResumeDouble_matched asciiLower "I know Python" (JsVal.str "Developer")
      [thirdsRow] thirdsRow "Python, Java, Rust" "Django" (by decide) (by decide) (by decide),
      by decide, hn, by decide, hm, ?_, ?_⟩
    · simp only [hs, hf]
      rw [hA, hB, hsum1]
    · simp only [hs, hf]
      rw [hA, hB, hsum1]
      norm_num
  · refine ⟨_, analyzeResumeDouble_matched asciiLower "I know Python, Django and Flask"
      (JsVal.str "Developer") [sixItemsRow] sixItemsRow "Python, Java, Rust"
      "Django, Spring, Flask" (by decide) (by decide) (by decide),
      by decide, by decide, hm2, ?_, ?_⟩
    · simp only [hs2, hf2]
      rw [hA, hC, hsum2]
    · simp only [hs2, hf2]
      rw [hA, hC, hsum2]
      norm_num

/-- C1 amended, evaluated: in the scenario of the specification one of two skills and one
of two frameworks are found; no operation rounds and the probability is 50. -/
theorem analyzeResumeDouble_probability_witness :
    (backendDataset.find? (fun item =>
        decide (item.prop "JOB ROLES" = JsVal.str "Backend Developer")) = some backendRow ∧
      backendRow.prop "PROGRAMMING SKILLS" = JsVal.str "Python, Java" ∧
      backendRow.prop "FRAMEWORKS" = JsVal.str "Django, Spring") ∧
    ∃ r, analyzeResumeDouble asciiLower "I know Python and Django"
        (JsVal.str "Backend Developer") backendDataset = Except.ok r ∧
      r.probability = 50 ∧ 0 ≤ r.probability ∧ r.probability ≤ 100 := by
  refine ⟨by decide, ?_⟩
  obtain ⟨_, _, r, hr, hp, _, h0, h100⟩ :=
    analyzeResumeDouble_probability asciiLower "I know Python and Django"
      (JsVal.str "Backend Developer") backendDataset backendRow "Python, Java" "Django, Spring"
      (by decide) (by decide) (by decide)
  refine ⟨r, hr, ?_, h0, h100⟩
  have hk : (parseList "Python, Java").countP (fun item =>
      decide ((asciiLower item).data <:+: (asciiLower "I know Python and Django").data))
      = 1 := by decide
  have hj : (parseList "Django, Spring").countP (fun item =>
      decide ((asciiLower item).data <:+: (asciiLower "I know Python and Django").data))
      = 1 := by decide
  have hn : (parseList "Python, Java").length = 2 := by decide
  have hm : (parseList "Django, Spring").length = 2 := by decide
  have hhalf : roundDouble ((1 : ℚ) / 2) = 1 / 2 :=
    roundDouble_exact _ (-1) 4503599627370496 (by norm_num) (by norm_num) (by norm_num)
      (by norm_num)
  have h25 : roundDouble (25 : ℚ) = 25 :=
    roundDouble_exact _ 4 7036874417766400 (by norm_num) (by norm_num) (by norm_num)
      (by norm_num)
  have h50 : roundDouble (50 : ℚ) = 50 :=
    roundDouble_exact _ 5 7036874417766400 (by norm_num) (by norm_num) (by norm_num)
      (by norm_num)
  rw [hp, hk, hj, hn, hm]
  norm_num [hhalf, h25, h50]

/-- C2, evaluated: the role name in another letter case is an unknown role. -/
theorem analyzeResume_role_not_found_witness :
    (∀ item ∈ backendDataset, item.prop "JOB ROLES" ≠ JsVal.str "backend developer") ∧
    analyzeResume asciiLower "I know Python and Django" (JsVal.str "backend developer")
        backendDataset
      = Except.ok
          { jobRole := JsVal.str "backend developer"
            probability := 0
            additionalSkills := "Job role not found in the dataset"
            additionalFrameworks := "Job role not found in the dataset"
            feedback := "Job role not found in the dataset" } :=
  ⟨by decide,
    (analyzeResume_role_not_found asciiLower "I know Python and Django"
      (JsVal.str "backend developer") backendDataset (by decide)).1⟩

/-- C4, evaluated: a résumé text naming all four required items is a perfect match. -/
theorem analyzeResume_perfect_match_witness :
    (backendDataset.find? (fun item =>
        decide (item.prop "JOB ROLES" = JsVal.str "Backend Developer")) = some backendRow ∧
      backendRow.prop "PROGRAMMING SKILLS" = JsVal.str "Python, Java" ∧
      backendRow.prop "FRAMEWORKS" = JsVal.str "Django, Spring") ∧
    ∃ r, analyzeResume asciiLower "python, JAVA, django and spring" (JsVal.str "Backend Developer")
        backendDataset = Except.ok r ∧
      r.probability = 100 ∧ r.feedback = "Great job! You are a perfect match for this role!" := by
  refine ⟨by decide, ?_⟩
  obtain ⟨r, hr, hall, _⟩ :=
    analyzeResume_perfect_match asciiLower "python, JAVA, django and spring"
      (JsVal.str "Backend Developer") backendDataset backendRow "Python, Java" "Django, Spring"
      (by decide) (by decide) (by decide)
  exact ⟨r, hr, hall ⟨by decide, by decide⟩⟩

/-- C7, evaluated: in the scenario of the specification each required list of two items is
split into one found and one missing item. -/
theorem analyzeResume_partition_witness :
    (backendDataset.find? (fun item =>
        decide (item.prop "JOB ROLES" = JsVal.str "Backend Developer")) = some backendRow ∧
      backendRow.prop "PROGRAMMING SKILLS" = JsVal.str "Python, Java" ∧
      backendRow.prop "FRAMEWORKS" = JsVal.str "Django, Spring") ∧
    ∃ skillsFound additionalSkills frameworksFound additionalFrameworks : List String,
      classify asciiLower "I know Python and Django" (parseList "Python, Java")
        = (skillsFound, additionalSkills) ∧
      classify asciiLower "I know Python and Django" (parseList "Django, Spring")
        = (frameworksFound, additionalFrameworks) ∧
      skillsFound.length + additionalSkills.length = (parseList "Python, Java").length ∧
      frameworksFound.length + additionalFrameworks.length
        = (parseList "Django, Spring").length := by
  refine ⟨by decide, ?_⟩
  obtain ⟨sf, sm, ff, fm, hs, hf, _, _, _, _, hlen, _, _, _, hlen2⟩ :=
    analyzeResume_partition asciiLower "I know Python and Django"
      (JsVal.str "Backend Developer") backendDataset backendRow "Python, Java" "Django, Spring"
      (by decide) (by decide) (by decide)
  exact ⟨sf, sm, ff, fm, hs, hf, hlen, hlen2⟩

/-- C10, evaluated with the ASCII lowercase mapping: the empty field parses to `[""]` and
its half of the score is 50 for the résumé text "anything". -/
theorem parseList_never_empty_witness :
    asciiLower "" = "" ∧ parseList "" = [""] ∧
    halfProbability (classify asciiLower "anything" (parseList "")).1 (parseList "") = 50 :=
  ⟨by decide, (parseList_never_empty asciiLower (by decide)).2.1,
    (parseList_never_empty asciiLower (by decide)).2.2.2.1 "anything"⟩

/-- C5, refuted as stated: the only required skill of the role is spelled "None" and the
résumé text does not contain it, so the list of missing skills is `["None"]`, not empty,
and yet `additionalSkills` is the text "None". -/
theorem additionalSkills_none_not_iff_empty :
    ∃ r, analyzeResume asciiLower "I test with Selenium" (JsVal.str "Tester") [testerRow]
        = Except.ok r ∧
      (classify asciiLower "I test with Selenium" (parseList "None")).2 = ["None"] ∧
      ¬ (r.additionalSkills = "None"
          ↔ (classify asciiLower "I test with Selenium" (parseList "None")).2 = []) := by
  have hs : classify asciiLower "I test with Selenium" (parseList "None") = ([], ["None"]) := by
    decide
  refine ⟨_, analyzeResume_eval asciiLower "I test with Selenium" (JsVal.str "Tester")
    [testerRow] testerRow "None" "Selenium" [] ["None"] ["Selenium"] [] 1 1
    (by decide) (by decide) (by decide) hs (by decide) (by decide) (by decide), ?_, ?_⟩
  · rw [hs]
  · rw [hs]
    intro h
    have h1 : orElse (join ["None"] ", ") "None" = "None" := by decide
    exact absurd (h.mp h1) (by decide)

/-- C5, amended: for a matched role, and a lowercase mapping that maps the empty string to
itself, `additionalSkills` is "None" when the list of missing skills is empty and the
missing skills joined with ", " otherwise; hence it equals "None" if and only if the list
of missing skills is empty or is the one-element list `["None"]`.  The same holds for
`additionalFrameworks` and the missing frameworks. -/
theorem analyzeResume_additional_fields (toLowerCase : String → String)
    (hempty : toLowerCase "" = "") (resumeText : String)
    (jobRole : JsVal) (excelData : List Row) (jobData : Row) (skillsField frameworksField : String)
    (hfind : excelData.find? (fun item => decide (item.prop "JOB ROLES" = jobRole)) = some jobData)
    (hskills : jobData.prop "PROGRAMMING SKILLS" = JsVal.str skillsField)
    (hframeworks : jobData.prop "FRAMEWORKS" = JsVal.str frameworksField) :
    ∃ r, analyzeResume toLowerCase resumeText jobRole excelData = Except.ok r ∧
      ((classify toLowerCase resumeText (parseList skillsField)).2 = [] →
        r.additionalSkills = "None") ∧
      ((classify toLowerCase resumeText (parseList skillsField)).2 ≠ [] →
        r.additionalSkills
          = join (classify toLowerCase resumeText (parseList skillsField)).2 ", ") ∧
      (r.additionalSkills = "None" ↔
        (classify toLowerCase resumeText (parseList skillsField)).2 = [] ∨
        (classify toLowerCase resumeText (parseList skillsField)).2 = ["None"]) ∧
      ((classify toLowerCase resumeText (parseList frameworksField)).2 = [] →
        r.additionalFrameworks = "None") ∧
      ((classify toLowerCase resumeText (parseList frameworksField)).2 ≠ [] →
        r.additionalFrameworks
          = join (classify toLowerCase resumeText (parseList frameworksField)).2 ", ") ∧
      (r.additionalFrameworks = "None" ↔
        (classify toLowerCase resumeText (parseList frameworksField)).2 = [] ∨
        (classify toLowerCase resumeText (parseList frameworksField)).2 = ["None"]) := by
  have key : ∀ field : String,
      ((classify toLowerCase resumeText (parseList field)).2 = [] →
        orElse (join (classify toLowerCase resumeText (parseList field)).2 ", ") "None"
          = "None") ∧
      ((classify toLowerCase resumeText (parseList field)).2 ≠ [] →
        orElse (join (classify toLowerCase resumeText (parseList field)).2 ", ") "None"
          = join (classify toLowerCase resumeText (parseList field)).2 ", ") ∧
      (orElse (join (classify toLowerCase resumeText (parseList field)).2 ", ") "None" = "None" ↔
        (classify toLowerCase resumeText (parseList field)).2 = [] ∨
        (classify toLowerCase resumeText (parseList field)).2 = ["None"]) := by
    intro field
    have hne := classify_missing_ne_empty toLowerCase hempty resumeText (parseList field)
    have hcomma : ∀ item ∈ (classify toLowerCase resumeText (parseList field)).2,
        ',' ∉ item.data := fun item hitem =>
      parseList_no_comma field item (classify_missing_mem _ _ _ item hitem)
    refine ⟨?_, orElse_join_of_ne_nil _ hne, orElse_join_eq_none_iff _ hne hcomma⟩
    intro hnil
    rw [hnil]
    decide
  obtain ⟨a1, a2, a3⟩ := key skillsField
  obtain ⟨b1, b2, b3⟩ := key frameworksField
  exact ⟨_, analyzeResume_matched toLowerCase resumeText jobRole excelData jobData skillsField
    frameworksField hfind hskills hframeworks, a1, a2, a3, b1, b2, b3⟩

/-- C5 amended, evaluated: in the scenario of the specification the missing skill is
"Java", so `additionalSkills` is "Java" and not "None". -/
theorem analyzeResume_additional_fields_witness :
    (asciiLower "" = "" ∧
      backendDataset.find? (fun item =>
        decide (item.prop "JOB ROLES" = JsVal.str "Backend Developer")) = some backendRow ∧
      backendRow.prop "PROGRAMMING SKILLS" = JsVal.str "Python, Java" ∧
      backendRow.prop "FRAMEWORKS" = JsVal.str "Django, Spring") ∧
    ∃ r, analyzeResume asciiLower "I know Python and Django" (JsVal.str "Backend Developer")
        backendDataset = Except.ok r ∧
      r.additionalSkills = "Java" ∧ r.additionalSkills ≠ "None" := by
  refine ⟨by decide, ?_⟩
  obtain ⟨r, hr, _, hjoin, _, _, _, _⟩ :=
    analyzeResume_additional_fields asciiLower (by decide) "I know Python and Django"
      (JsVal.str "Backend Developer") backendDataset backendRow "Python, Java" "Django, Spring"
      (by decide) (by decide) (by decide)
  have hs : (classify asciiLower "I know Python and Django" (parseList "Python, Java")).2
      = ["Java"] := by decide
  have hval : r.additionalSkills = "Java" := by
    rw [hjoin (by rw [hs]; decide), hs]
    decide
  exact ⟨r, hr, hval, by rw [hval]; decide⟩

/-- C6, refuted as stated: the résumé text "straße flask" and its upper-cased form
"STRASSE FLASK" (the letter `ß` has the uppercase `SS`) do not get the same result.  The
required skill "straße" is found in the first text, whose lowercase form is the text
itself, and missing in the second, whose lowercase form is "strasse flask": the
probability is 50 for the first and 25 for the second (both exact in double precision). -/
theorem analyzeResume_upper_case_changes_result :
    upperCaseLatin "straße flask" = "STRASSE FLASK" ∧
    asciiLower "straße flask" = "straße flask" ∧
    asciiLower "STRASSE FLASK" = "strasse flask" ∧
    analyzeResume asciiLower "straße flask" (JsVal.str "Bauleiter") [strasseRow]
      = Except.ok
          { jobRole := JsVal.str "Bauleiter"
            probability := 50
            additionalSkills := "Java"
            additionalFrameworks := "Django"
            feedback := "You have some of the required skills and frameworks. Consider improving the following areas: Java, Django" } ∧
    analyzeResume asciiLower (upperCaseLatin "straße flask") (JsVal.str "Bauleiter") [strasseRow]
      = Except.ok
          { jobRole := JsVal.str "Bauleiter"
            probability := 25
            additionalSkills := "straße, Java"
            additionalFrameworks := "Django"
            feedback := "You need to improve your skills and frameworks significantly. Consider learning: straße, Java, Django" } ∧
    analyzeResume asciiLower (upperCaseLatin "straße flask") (JsVal.str "Bauleiter") [strasseRow]
      ≠ analyzeResume asciiLower "straße flask" (JsVal.str "Bauleiter") [strasseRow] := by
  have hupper : upperCaseLatin "straße flask" = "STRASSE FLASK" := by decide
  have h1 : analyzeResume asciiLower "straße flask" (JsVal.str "Bauleiter") [strasseRow]
      = Except.ok
          { jobRole := JsVal.str "Bauleiter"
            probability := 50
            additionalSkills := "Java"
            additionalFrameworks := "Django"
            feedback := "You have some of the required skills and frameworks. Consider improving the following areas: Java, Django" } := by
    rw [analyzeResume_eval asciiLower "straße flask" (JsVal.str "Bauleiter") [strasseRow]
      strasseRow "straße, Java" "Flask, Django" ["straße"] ["Java"] ["Flask"] ["Django"] 2 2
      (by decide) (by decide) (by decide) (by decide) (by decide) (by decide) (by decide)]
    norm_num [makeFeedback]
    decide
  have h2 : analyzeResume asciiLower "STRASSE FLASK" (JsVal.str "Bauleiter") [strasseRow]
      = Except.ok
          { jobRole := JsVal.str "Bauleiter"
            probability := 25
            additionalSkills := "straße, Java"
            additionalFrameworks := "Django"
            feedback := "You need to improve your skills and frameworks significantly. Consider learning: straße, Java, Django" } := by
    rw [analyzeResume_eval asciiLower "STRASSE FLASK" (JsVal.str "Bauleiter") [strasseRow]
      strasseRow "straße, Java" "Flask, Django" [] ["straße", "Java"] ["Flask"] ["Django"] 2 2
      (by decide) (by decide) (by decide) (by decide) (by decide) (by decide) (by decide)]
    norm_num [makeFeedback]
    decide
  refine ⟨hupper, by decide, by decide, h1, ?_, ?_⟩
  · rw [hupper]
    exact h2
  · rw [hupper, h1, h2]
    intro heq
    have hprob := congrArg AnalysisResult.probability (Except.ok.inj heq)
    norm_num at hprob

/-- C6, amended: matching is case-insensitive and the output keeps the dataset casing.
Replacing the résumé text by a text with the same lowercase form (as `toLowerCase` computes
it) leaves the whole result of `analyzeResume` unchanged, whatever the role and dataset; in
particular the lower-cased form of a text gets the same result as the text, `toLowerCase`
leaving a lowercase form unchanged.  For a matched role the tokens listed in
`additionalSkills` and `additionalFrameworks` are a subsequence of the dataset tokens as
written in the dataset (split on `,` and trimmed, not lowercased). -/
theorem analyzeResume_case_insensitive (toLowerCase : String → String)
    (resumeText resumeText2 : String) (jobRole : JsVal) (excelData : List Row)
    (hcase : toLowerCase resumeText = toLowerCase resumeText2) :
    analyzeResume toLowerCase resumeText jobRole excelData
      = analyzeResume toLowerCase resumeText2 jobRole excelData ∧
    (toLowerCase (toLowerCase resumeText) = toLowerCase resumeText →
      analyzeResume toLowerCase (toLowerCase resumeText) jobRole excelData
        = analyzeResume toLowerCase resumeText jobRole excelData) ∧
    (∀ (jobData : Row) (skillsField frameworksField : String),
      excelData.find? (fun item => decide (item.prop "JOB ROLES" = jobRole)) = some jobData →
      jobData.prop "PROGRAMMING SKILLS" = JsVal.str skillsField →
      jobData.prop "FRAMEWORKS" = JsVal.str frameworksField →
      ∃ (r : AnalysisResult) (missingSkills missingFrameworks : List String),
        analyzeResume toLowerCase resumeText jobRole excelData = Except.ok r ∧
        List.Sublist missingSkills ((split skillsField ',').map trim) ∧
        List.Sublist missingFrameworks ((split frameworksField ',').map trim) ∧
        r.additionalSkills = orElse (join missingSkills ", ") "None" ∧
        r.additionalFrameworks = orElse (join missingFrameworks ", ") "None") := by
  refine ⟨analyzeResume_congr toLowerCase resumeText resumeText2 jobRole excelData hcase,
    fun hidem => analyzeResume_congr toLowerCase _ _ jobRole excelData hidem, ?_⟩
  · intro jobData skillsField frameworksField hfind hskills hframeworks
    refine ⟨_, (classify toLowerCase resumeText (parseList skillsField)).2,
      (classify toLowerCase resumeText (parseList frameworksField)).2,
      analyzeResume_matched toLowerCase resumeText jobRole excelData jobData skillsField
        frameworksField hfind hskills hframeworks, ?_, ?_, rfl, rfl⟩
    · rw [classify_eq]
      exact List.filter_sublist _
    · rw [classify_eq]
      exact List.filter_sublist _

/-- C6 amended, evaluated: the résumé text "PYTHON" satisfies the required skill "python",
and gets the same result as the résumé text "python". -/
theorem analyzeResume_case_insensitive_witness :
    asciiLower "PYTHON" = asciiLower "python" ∧
    isFound asciiLower "PYTHON" "python" = true ∧
    analyzeResume asciiLower "PYTHON" (JsVal.str "Scripter") [mkRow "Scripter" "python" "Flask"]
      = analyzeResume asciiLower "python" (JsVal.str "Scripter")
          [mkRow "Scripter" "python" "Flask"] :=
  ⟨by decide, by decide,
    (analyzeResume_case_insensitive asciiLower "PYTHON" "python" (JsVal.str "Scripter")
      [mkRow "Scripter" "python" "Flask"] (by decide)).1⟩

/-- C3: the feedback below 100.  In the scenario of the specification (one skill and one
framework missing) the feedback is the fixed message followed by "Java, Spring".  When the
only required skill is found and one framework is missing, the list of missing skills is
empty and the feedback is the fixed message followed by ", Spring": it is not the fixed
message followed by the comma-joined list of the missing items, which is "Spring".  When
both lists of missing items are non-empty, the feedback is the fixed message of the branch
followed by the missing skills and then the missing frameworks joined with ", ". -/
theorem makeFeedback_empty_missing_skills :
    analyzeResume asciiLower "I know Python and Django" (JsVal.str "Backend Developer")
        backendDataset
      = Except.ok
          { jobRole := JsVal.str "Backend Developer"
            probability := 50
            additionalSkills := "Java"
            additionalFrameworks := "Spring"
            feedback := "You have some of the required skills and frameworks. Consider improving the following areas: Java, Spring" } ∧
    classify asciiLower "I know Python and Django" (parseList "Python") = (["Python"], []) ∧
    classify asciiLower "I know Python and Django" (parseList "Django, Spring")
      = (["Django"], ["Spring"]) ∧
    analyzeResume asciiLower "I know Python and Django" (JsVal.str "Backend Developer")
        [pythonRow]
      = Except.ok
          { jobRole := JsVal.str "Backend Developer"
            probability := 75
            additionalSkills := "None"
            additionalFrameworks := "Spring"
            feedback := "You have some of the required skills and frameworks. Consider improving the following areas: , Spring" } ∧
    "You have some of the required skills and frameworks. Consider improving the following areas: , Spring"
      ≠ someMessage ++ join (([] : List String) ++ ["Spring"]) ", " ∧
    (∀ (probability : ℚ) (missingSkills missingFrameworks : List String),
      missingSkills ≠ [] → missingFrameworks ≠ [] → probability ≠ 100 →
      makeFeedback probability missingSkills missingFrameworks
        = (if probability ≥ 50 then someMessage else improveMessage)
            ++ join (missingSkills ++ missingFrameworks) ", ") := by
  have h2 : classify asciiLower "I know Python and Django" (parseList "Django, Spring")
      = (["Django"], ["Spring"]) := by decide
  have h3 : classify asciiLower "I know Python and Django" (parseList "Python")
      = (["Python"], []) := by decide
  refine ⟨analyzeResume_backend_scenario, h3, h2, ?_, by decide, ?_⟩
  · rw [analyzeResume_eval asciiLower "I know Python and Django" (JsVal.str "Backend Developer")
      [pythonRow] pythonRow "Python" "Django, Spring" ["Python"] [] ["Django"]
      ["Spring"] 1 2 (by decide) (by decide) (by decide) h3 h2 (by decide) (by decide)]
    norm_num [makeFeedback]
    decide
  · intro probability missingSkills missingFrameworks hs hf hp
    unfold makeFeedback
    rw [if_neg hp, join_append missingSkills missingFrameworks hs hf]
    split <;> simp only [String.append_assoc]

/-! ## The claims about the logger and the handler -/

/-- C8: the log after the first append.  When `userdata.xlsx` does not exist,
`appendToExcel` applied to the row the handler builds (missing e-mail and phone replaced by
"N/A") writes a sheet with the title row, then a row of eight empty-string cells, then the
submitted record: read back, the log has two data rows, not one.  A second append to that
log adds the new record as the last row and keeps the rows before it. -/
theorem appendToExcel_new_log_rows :
    adaRow
      = [("First Name", JsVal.str "Ada"), ("Email", JsVal.str "N/A"),
         ("Phone", JsVal.str "N/A"), ("Signup Date", JsVal.str "11/06/2026"),
         ("Signup Time", JsVal.str "10:15:00"), ("Job Role", JsVal.str "Backend Developer"),
         ("Probability Score", JsVal.num 50), ("Resume File", JsVal.str "cv.pdf")] ∧
    sheet_to_json (sheet_add_json (json_to_sheet []) [headerSeed]) = [headerSeed] ∧
    appendToExcel (freshFileSystem "%PDF I know Python and Django") adaRow
      = Except.ok
          { uploads := [("uploads/9f3c", "%PDF I know Python and Django")]
            userdata :=
              some { SheetNames := ["UserData"]
                     Sheets := [("UserData", [titleCells, blankCells, adaCells])] }
            writable := true } ∧
    sheet_to_json [titleCells, blankCells, adaCells] = [headerSeed, adaRow] ∧
    (sheet_to_json [titleCells, blankCells, adaCells]).length = 2 ∧
    appendToExcelWorkbook
        (some { SheetNames := ["UserData"]
                Sheets := [("UserData", [titleCells, blankCells, adaCells])] })
        adaRow
      = { SheetNames := ["UserData"]
          Sheets := [("UserData", [titleCells, blankCells, adaCells, adaCells])] } := by
  exact ⟨by decide, by decide, rfl, by decide, by decide, by decide⟩

/-- C9: the temporary file after the handler has finished.  On the success path the file
is deleted.  When text extraction fails, when matching throws (a skills cell that is not a
string) and when the log cannot be written, the handler answers 500 "Error processing
request" and the temporary file is still there. -/
theorem upload_temporary_file :
    upload backendEnv adaRequest (freshFileSystem "%PDF I know Python and Django")
      = (Response.analysis (JsVal.str "Backend Developer") 50 "Java" "Spring"
            "You have some of the required skills and frameworks. Consider improving the following areas: Java, Spring",
          { uploads := []
            userdata :=
              some { SheetNames := ["UserData"]
                     Sheets := [("UserData", [titleCells, blankCells, adaCells])] }
            writable := true }) ∧
    upload backendEnv adaRequest (freshFileSystem "not a PDF")
      = (Response.error 500 "Error processing request", freshFileSystem "not a PDF") ∧
    (freshFileSystem "not a PDF").uploads = [("uploads/9f3c", "not a PDF")] ∧
    upload numericCellEnv adaRequest (freshFileSystem "%PDF I know Python and Django")
      = (Response.error 500 "Error processing request",
          freshFileSystem "%PDF I know Python and Django") ∧
    upload backendEnv adaRequest
        { uploads := [("uploads/9f3c", "%PDF I know Python and Django")]
          userdata := none
          writable := false }
      = (Response.error 500 "Error processing request",
          { uploads := [("uploads/9f3c", "%PDF I know Python and Django")]
            userdata := none
            writable := false }) := by
  have hparse : markedPdfParse "%PDF I know Python and Django"
      = Except.ok "I know Python and Django" := rfl
  have hrow : excelDataRow adaRequest "11/06/2026" "10:15:00" 50 "cv.pdf" = adaRow := rfl
  have hfile : adaRequest.file = some { path := "uploads/9f3c", originalname := "cv.pdf" } := rfl
  have hrole : adaRequest.jobRole = JsVal.str "Backend Developer" := rfl
  refine ⟨?_, by decide, by decide, by decide, ?_⟩
  · have happend : appendToExcel (freshFileSystem "%PDF I know Python and Django") adaRow
        = Except.ok
            { uploads := [("uploads/9f3c", "%PDF I know Python and Django")]
              userdata :=
                some { SheetNames := ["UserData"]
                       Sheets := [("UserData", [titleCells, blankCells, adaCells])] }
              writable := true } := rfl
    have hlookup : (freshFileSystem "%PDF I know Python and Django").uploads.lookup
        "uploads/9f3c" = some "%PDF I know Python and Django" := by decide
    simp only [upload, uploadTry, hfile, hrole, backendEnv, hlookup, hparse,
      analyzeResume_backend_scenario, hrow, happend]
    decide
  · have hlookup : (([("uploads/9f3c", "%PDF I know Python and Django")] :
        List (String × String)).lookup "uploads/9f3c")
        = some "%PDF I know Python and Django" := by decide
    have happend : appendToExcel
        { uploads := [("uploads/9f3c", "%PDF I know Python and Django")]
          userdata := none
          writable := false } adaRow = Except.error JsError.ioError := rfl
    simp only [upload, uploadTry, hfile, hrole, backendEnv, hlookup, hparse,
      analyzeResume_backend_scenario, hrow, happend]

end Server
